import Mathlib

/-!
# Verification of the ARMv7-A debug controller (probe-rs, `armv7a.rs`)

Shallow embedding of `src/probe-rs/src/architecture/arm/core/armv7a.rs`:
the driver's state machine (register cache with deferred write-back, halt /
run / reset, register and memory access through the instruction-transfer
mechanism, hardware breakpoints) together with an idealised model of the
hardware it talks to (the memory-mapped ARMv7-A debug component plus the
halted core behind it).

Machine integers are `Nat` with explicit `% 2^32` where the Rust `u32`
arithmetic can wrap.  Fallible driver operations return `Except`.  Unbounded
polling loops in the Rust source are given explicit fuel; exhausting the fuel
is reported as a `timeout` error (the Rust code would spin instead).  The
Rust `panic!` in register write-back is modelled as the `logicMissing`
error (a program abort).

The 17-slot `Vec<Option<(RegisterValue, bool)>>` register cache is modelled
as a total map `Nat → Option (Nat × Bool)`; the vector's length, which is
always 17 after session construction, appears as the literal `17` in the
bounds checks mirrored from the source.
-/

namespace Armv7a

/-- One 32-bit transaction on the lower-level memory interface
(`read_word_32` / `write_word_32` of the probe). -/
inductive BusOp where
  | readW (addr val : Nat)
  | writeW (addr val : Nat)
deriving DecidableEq, Repr

/-- Halt reasons reported through DBGDSCR's method-of-entry field. -/
inductive HaltReason where
  | request
  | breakpoint
  | watchpoint
  | external
  | exception
  | multiple
  | unknown
deriving DecidableEq, Repr

/-- `CoreStatus` as used by the driver (`Unknown`, `Running`, `Halted`). -/
inductive CoreStatus where
  | unknown
  | running
  | halted (reason : HaltReason)
deriving DecidableEq, Repr

/-- `CoreStatus::is_halted`. -/
def CoreStatus.is_halted : CoreStatus → Bool
  | .halted _ => true
  | _ => false

/-- Errors of the driver.  `logicMissing i` stands for the Rust
`panic!("Logic missing for writeback of register {}", i)`, i.e. a program
abort; `timeout` also stands in for exhausted poll fuel. -/
inductive DrvError where
  | invalidRegisterNumber (n : Nat)
  | notHalted
  | dataAbort
  | timeout
  | invalidAddress
  | valueOutOfRange
  | logicMissing (i : Nat)
deriving DecidableEq, Repr

/-- Pointwise update of a function-typed register bank / memory. -/
def updFn (f : Nat → Nat) (i v : Nat) : Nat → Nat :=
  fun j => if j = i then v else f j

/-- Idealised ARMv7-A core + debug component reachable through the bus.
`regs i` holds general-purpose register `Ri` for `i ∈ [0..=14]`; `mem` maps a
word-aligned byte address to the 32-bit word stored there; `bvr`/`bcr` are
the breakpoint value/control units; the remaining fields are the DBGDSCR /
DTR state of the debug component. -/
structure Device where
  regs : Nat → Nat
  pc : Nat
  cpsr : Nat
  halted : Bool
  restarted : Bool
  itren : Bool
  moe : Nat
  dtrtx : Nat
  txfull : Bool
  dtrrx : Nat
  rxfull : Bool
  instrcoml : Bool
  sdabort : Bool
  adabort : Bool
  brps : Nat
  bvr : Nat → Nat
  bcr : Nat → Nat
  mem : Nat → Nat

/-! ## Instruction encoder

Modelled from the spec: §4.1 describes the pure A32 encoder functions
(`build_mcr`, `build_mrc`, `build_ldc`, `build_stc`, `build_mov`,
`build_mrs`, `build_bx`) of `instructions/aarch32.rs`, which is not under
`src/`; field placement follows the ARM Architecture Reference Manual. -/

/-- `build_mcr(coproc, opc1, rt, crn, crm, opc2)` — MCR, cond = AL. -/
def build_mcr (coproc opc1 rt crn crm opc2 : Nat) : Nat :=
  0xEE000010 + opc1 * 2^21 + crn * 2^16 + rt * 2^12 + coproc * 2^8 + opc2 * 2^5 + crm

/-- `build_mrc(coproc, opc1, rt, crn, crm, opc2)` — MRC, cond = AL. -/
def build_mrc (coproc opc1 rt crn crm opc2 : Nat) : Nat :=
  0xEE100010 + opc1 * 2^21 + crn * 2^16 + rt * 2^12 + coproc * 2^8 + opc2 * 2^5 + crm

/-- `build_ldc(coproc, crd, rn, offset)` — LDC post-indexed. -/
def build_ldc (coproc crd rn offset : Nat) : Nat :=
  0xECB00000 + rn * 2^16 + crd * 2^12 + coproc * 2^8 + offset / 4

/-- `build_stc(coproc, crd, rn, offset)` — STC post-indexed. -/
def build_stc (coproc crd rn offset : Nat) : Nat :=
  0xECA00000 + rn * 2^16 + crd * 2^12 + coproc * 2^8 + offset / 4

/-- `build_mov(rd, rm)` — data-processing MOV. -/
def build_mov (rd rm : Nat) : Nat :=
  0xE1A00000 + rd * 2^12 + rm

/-- `build_mrs(rd)` — read CPSR into `rd`. -/
def build_mrs (rd : Nat) : Nat :=
  0xE10F0000 + rd * 2^12

/-- `build_bx(rm)` — branch-exchange. -/
def build_bx (rm : Nat) : Nat :=
  0xE12FFF10 + rm

/-- Rt field of an MCR/MRC word (bits 15:12). -/
def mcrRt (w : Nat) : Nat := (w / 2^12) % 16

/-- Effect of the core executing one instruction smuggled in through DBGITR.
Only the instruction shapes the driver actually issues are interpreted;
`instrcoml` is latched on completion.  The PC read through `MOV r0, PC`
observes `pc + 8` (the A32 pipeline offset). -/
def execInstr (d : Device) (w : Nat) : Device :=
  let d' :=
    if w = build_mov 0 15 then
      { d with regs := updFn d.regs 0 ((d.pc + 8) % 2^32) }
    else if w = build_mrs 0 then
      { d with regs := updFn d.regs 0 d.cpsr }
    else if w = build_bx 0 then
      { d with pc := d.regs 0 }
    else if w = build_ldc 14 5 0 4 then
      { d with dtrtx := d.mem (d.regs 0), txfull := true,
               regs := updFn d.regs 0 ((d.regs 0 + 4) % 2^32) }
    else if w = build_stc 14 5 0 4 then
      { d with mem := updFn d.mem (d.regs 0) d.dtrrx, rxfull := false,
               regs := updFn d.regs 0 ((d.regs 0 + 4) % 2^32) }
    else if w = build_mcr 14 0 (mcrRt w) 0 5 0 then
      { d with dtrtx := d.regs (mcrRt w), txfull := true }
    else if w = build_mrc 14 0 (mcrRt w) 0 5 0 then
      { d with regs := updFn d.regs (mcrRt w) d.dtrrx, rxfull := false }
    else d
  { d' with instrcoml := true }

/-! ## Debug register map

Modelled from the spec: §4.2/§6 say the named debug registers live at the
ARMv7-A architectural offsets from the component base (register number × 4
per the ARM ARM): DBGDIDR 0x000, DBGDTRRX 0x080, DBGITR 0x084, DBGDSCR
0x088, DBGDTRTX 0x08C, DBGDRCR 0x090, DBGBVR 0x100, DBGBCR 0x140; callers
stride DBGBVR/DBGBCR by 4 bytes per unit.  The bit positions below follow
the ARM ARM fields named in §4.2. -/

def Dbgdidr.get_mmio_address (base : Nat) : Nat := base
def Dbgdtrrx.get_mmio_address (base : Nat) : Nat := base + 0x80
def Dbgitr.get_mmio_address (base : Nat) : Nat := base + 0x84
def Dbgdscr.get_mmio_address (base : Nat) : Nat := base + 0x88
def Dbgdtrtx.get_mmio_address (base : Nat) : Nat := base + 0x8C
def Dbgdrcr.get_mmio_address (base : Nat) : Nat := base + 0x90
def Dbgbvr.get_mmio_address (base : Nat) : Nat := base + 0x100
def Dbgbcr.get_mmio_address (base : Nat) : Nat := base + 0x140

/-- 0/1 indicator of a flag bit. -/
def bitOf (b : Bool) : Nat := cond b 1 0

/-- The DBGDSCR word the device presents: HALTED bit 0, RESTARTED bit 1,
MOE bits 5:2, SDABORT_l bit 6, ADABORT_l bit 7, ITREN bit 13, INSTRCOML_l
bit 24, TXFULL_l bit 26, RXFULL_l bit 27. -/
def dscrValue (d : Device) : Nat :=
  bitOf d.halted + 2 * bitOf d.restarted + 4 * (d.moe % 16) +
    2^6 * bitOf d.sdabort + 2^7 * bitOf d.adabort + 2^13 * bitOf d.itren +
    2^24 * bitOf d.instrcoml + 2^26 * bitOf d.txfull + 2^27 * bitOf d.rxfull

/-- The DBGDIDR word: BRPS in bits 27:24. -/
def didrValue (d : Device) : Nat := 2^24 * (d.brps % 16)

/-- Effect of a write to DBGDRCR: CSE bit 2 clears the sticky aborts, HRQ
bit 0 halts the core, RRQ bit 1 restarts it. -/
def drcrEffect (d : Device) (val : Nat) : Device :=
  let d1 := if val.testBit 2 then { d with sdabort := false, adabort := false } else d
  let d2 := if val.testBit 0 then { d1 with halted := true, restarted := false, moe := 0 } else d1
  if val.testBit 1 then { d2 with halted := false, restarted := true } else d2

/-- Device response to a 32-bit bus read at `addr` (value read, next device
state).  Reading DBGDTRTX drains the TX channel. -/
def devRead (base : Nat) (d : Device) (addr : Nat) : Nat × Device :=
  if addr = Dbgdscr.get_mmio_address base then (dscrValue d, d)
  else if addr = Dbgdtrtx.get_mmio_address base then (d.dtrtx, { d with txfull := false })
  else if addr = Dbgdidr.get_mmio_address base then (didrValue d, d)
  else if Dbgbvr.get_mmio_address base ≤ addr ∧ addr < Dbgbvr.get_mmio_address base + 0x40 then
    (d.bvr ((addr - Dbgbvr.get_mmio_address base) / 4), d)
  else if Dbgbcr.get_mmio_address base ≤ addr ∧ addr < Dbgbcr.get_mmio_address base + 0x40 then
    (d.bcr ((addr - Dbgbcr.get_mmio_address base) / 4), d)
  else (0, d)

/-- Device response to a 32-bit bus write.  A write to DBGITR executes the
instruction if the core is halted and ITR is enabled; a write to DBGDTRRX
fills the RX channel. -/
def devWrite (base : Nat) (d : Device) (addr val : Nat) : Device :=
  if addr = Dbgdscr.get_mmio_address base then { d with itren := val.testBit 13 }
  else if addr = Dbgitr.get_mmio_address base then
    (if d.halted && d.itren then execInstr d val else d)
  else if addr = Dbgdtrrx.get_mmio_address base then { d with dtrrx := val, rxfull := true }
  else if addr = Dbgdrcr.get_mmio_address base then drcrEffect d val
  else if Dbgbvr.get_mmio_address base ≤ addr ∧ addr < Dbgbvr.get_mmio_address base + 0x40 then
    { d with bvr := updFn d.bvr ((addr - Dbgbvr.get_mmio_address base) / 4) val }
  else if Dbgbcr.get_mmio_address base ≤ addr ∧ addr < Dbgbcr.get_mmio_address base + 0x40 then
    { d with bcr := updFn d.bcr ((addr - Dbgbcr.get_mmio_address base) / 4) val }
  else d

/-- Whole-system state: the device, the driver's session state
(`CortexAState` plus the `Armv7a` fields), and the trace of bus traffic
issued so far (most recent first). -/
structure Sys where
  baseAddress : Nat
  dev : Device
  currentState : CoreStatus
  registerCache : Nat → Option (Nat × Bool)
  itrEnabled : Bool
  numBreakpoints : Option Nat
  trace : List BusOp

instance {ε α : Type} [DecidableEq ε] [DecidableEq α] : DecidableEq (Except ε α) := fun a b =>
  match a, b with
  | .ok x, .ok y =>
    if h : x = y then isTrue (by rw [h]) else isFalse (fun he => by cases he; exact h rfl)
  | .error x, .error y =>
    if h : x = y then isTrue (by rw [h]) else isFalse (fun he => by cases he; exact h rfl)
  | .ok _, .error _ => isFalse (fun he => Except.noConfusion he)
  | .error _, .ok _ => isFalse (fun he => Except.noConfusion he)

/-- Driver computations: state transformer over `Sys` with errors.  Errors
keep the state reached so far, like Rust `?` on `&mut self` methods. -/
def M (α : Type) : Type := Sys → Except DrvError α × Sys

instance : Monad M where
  pure a := fun s => (Except.ok a, s)
  bind m f := fun s =>
    match m s with
    | (Except.ok a, s') => f a s'
    | (Except.error e, s') => (Except.error e, s')

/-- Read one word through the memory interface. -/
def busRead (addr : Nat) : M Nat := fun s =>
  match devRead s.baseAddress s.dev addr with
  | (v, d') => (Except.ok v, { s with dev := d', trace := BusOp.readW addr v :: s.trace })

/-- Write one word through the memory interface. -/
def busWrite (addr val : Nat) : M Unit := fun s =>
  (Except.ok (), { s with dev := devWrite s.baseAddress s.dev addr val,
                          trace := BusOp.writeW addr val :: s.trace })

/-- Fail with a driver error. -/
def throwE {α : Type} (e : DrvError) : M α := fun s => (Except.error e, s)

/-- Read the current system state. -/
def getSys : M Sys := fun s => (Except.ok s, s)

/-- Update the system state. -/
def modifySys (f : Sys → Sys) : M Unit := fun s => (Except.ok (), f s)

/-! ## The driver (`impl Armv7a` / `CoreInterface` / `MemoryInterface`)

Each polling loop of the source (`while !flag { re-read }`) carries explicit
`fuel`; the deterministic idealised device satisfies every poll on the first
read, and exhausting the fuel returns `DrvError.timeout` where the Rust
would keep spinning. -/

/-- Re-read DBGDSCR until `p` holds of the word (the body of the source's
poll loops), with at most `fuel` reads. -/
def pollDscr (fuel : Nat) (p : Nat → Bool) : M Nat :=
  match fuel with
  | 0 => throwE .timeout
  | n + 1 => do
    let s ← getSys
    let w ← busRead (Dbgdscr.get_mmio_address s.baseAddress)
    if p w then pure w else pollDscr n p

/-- Continue a do-while poll: the source inspects the word it already has
before re-reading DBGDSCR. -/
def pollDscrFrom (fuel : Nat) (p : Nat → Bool) (w : Nat) : M Nat :=
  if p w then pure w else pollDscr fuel p

/-- The lazy ITR enable at the top of `Armv7a::execute_instruction`: if the
session has not yet set DBGDSCR.ITREN, read-modify-write it and remember. -/
def enable_itr_if_needed : M Unit := do
  let s ← getSys
  if !s.itrEnabled then do
    let w ← busRead (Dbgdscr.get_mmio_address s.baseAddress)
    busWrite (Dbgdscr.get_mmio_address s.baseAddress) (w ||| 2^13)
    modifySys (fun s => { s with itrEnabled := true })
  else pure ()

/-- `Armv7a::execute_instruction`: require a (believed) halted core, lazily
enable ITR, push the instruction through DBGITR, poll for INSTRCOML_l, and
turn a sticky abort into `DataAbort` after clearing it via DBGDRCR.CSE. -/
def execute_instruction (fuel : Nat) (instruction : Nat) : M Nat := do
  let s ← getSys
  if !s.currentState.is_halted then throwE .notHalted else do
  enable_itr_if_needed
  busWrite (Dbgitr.get_mmio_address s.baseAddress) instruction
  let w ← pollDscr fuel (fun w => w.testBit 24)
  if w.testBit 7 || w.testBit 6 then do
    busWrite (Dbgdrcr.get_mmio_address s.baseAddress) (2^2)
    throwE .dataAbort
  else pure w

/-- `Armv7a::execute_instruction_with_result`: run, wait for TXFULL_l, read
DBGDTRTX. -/
def execute_instruction_with_result (fuel : Nat) (instruction : Nat) : M Nat := do
  let w ← execute_instruction fuel instruction
  let _ ← pollDscrFrom fuel (fun w => w.testBit 26) w
  let s ← getSys
  busRead (Dbgdtrtx.get_mmio_address s.baseAddress)

/-- `Armv7a::execute_instruction_with_input`: load DBGDTRRX, wait for
RXFULL_l, then run. -/
def execute_instruction_with_input (fuel : Nat) (instruction value : Nat) : M Unit := do
  let s ← getSys
  busWrite (Dbgdtrrx.get_mmio_address s.baseAddress) value
  let _ ← pollDscr fuel (fun w => w.testBit 27)
  let _ ← execute_instruction fuel instruction
  pure ()

/-- `Armv7a::reset_register_cache`: every slot becomes empty. -/
def reset_register_cache : M Unit :=
  modifySys (fun s => { s with registerCache := fun _ => none })

/-- Update one register-cache slot. -/
def setCache (i : Nat) (e : Option (Nat × Bool)) : M Unit :=
  modifySys (fun s =>
    { s with registerCache := fun j => if j = i then e else s.registerCache j })

/-- One iteration of the write-back loop at slot `i`: a clean or empty slot
is skipped; dirty `0..=14` goes back via `MRC p14,0,Ri,c0,c5,0`; dirty 15
loads R0 and branches with `BX r0`; any other dirty slot hits the source's
`panic!` (modelled as `logicMissing`). -/
def writebackSlot (fuel i : Nat) : M Unit := do
  let s ← getSys
  match s.registerCache i with
  | none => pure ()
  | some (val, writeback) =>
    if !writeback then pure ()
    else if i ≤ 14 then
      execute_instruction_with_input fuel (build_mrc 14 0 i 0 5 0) val
    else if i = 15 then do
      execute_instruction_with_input fuel (build_mrc 14 0 0 0 5 0) val
      let _ ← execute_instruction fuel (build_bx 0)
      pure ()
    else throwE (.logicMissing i)

/-- The write-back loop over slots `i, i+1, …` (`count` slots). -/
def writebackLoop (fuel : Nat) : Nat → Nat → M Unit
  | 0, _ => pure ()
  | count + 1, i => do
    writebackSlot fuel i
    writebackLoop fuel count (i + 1)

/-- `Armv7a::writeback_registers`: flush every dirty slot in index order,
then reset the cache. -/
def writeback_registers (fuel : Nat) : M Unit := do
  writebackLoop fuel 17 0
  reset_register_cache

/-- The `0..=14` register read (`MCR p14,0,Rn,c0,c5,0` + result) together
with the cache check and fill of `read_core_reg`, specialised to R0.  This
mirrors `read_core_reg(RegisterId(0))` exactly, which
`prepare_r0_for_clobber` calls; the specialisation only breaks the (in Rust
dynamically impossible) recursion through index 0. -/
def read_core_reg_r0 (fuel : Nat) : M Nat := do
  let s ← getSys
  match s.registerCache 0 with
  | some c => pure c.1
  | none => do
    let v ← execute_instruction_with_result fuel (build_mcr 14 0 0 0 5 0)
    setCache 0 (some (v, false))
    pure v

/-- `Armv7a::prepare_r0_for_clobber`: if slot 0 is empty, read R0 (caching
it clean) and re-mark the slot dirty so write-back restores it.  A slot 0
that is already occupied — even clean — is left untouched. -/
def prepare_r0_for_clobber (fuel : Nat) : M Unit := do
  let s ← getSys
  match s.registerCache 0 with
  | some _ => pure ()
  | none => do
    let v ← read_core_reg_r0 fuel
    setCache 0 (some (v, true))

/-- `Armv7a::set_r0`: `MRC p14,0,r0,c0,c5,0` with the value as DTR input. -/
def set_r0 (fuel value : Nat) : M Unit :=
  execute_instruction_with_input fuel (build_mrc 14 0 0 0 5 0) value

/-- The uncached paths of `read_core_reg`: `0..=14` via MCR; 15 via
`MOV r0,PC` then R0, minus the pipeline offset 8 (u32 wrapping
subtraction); 16 via `MRS r0, CPSR` then R0; anything else is
`InvalidRegisterNumber`. -/
def read_core_reg_uncached (fuel reg_num : Nat) : M Nat :=
  if reg_num ≤ 14 then
    execute_instruction_with_result fuel (build_mcr 14 0 reg_num 0 5 0)
  else if reg_num = 15 then do
    prepare_r0_for_clobber fuel
    let _ ← execute_instruction fuel (build_mov 0 15)
    let pra_plus_offset ← execute_instruction_with_result fuel (build_mcr 14 0 0 0 5 0)
    pure ((pra_plus_offset + (2^32 - 8)) % 2^32)
  else if reg_num = 16 then do
    prepare_r0_for_clobber fuel
    let _ ← execute_instruction fuel (build_mrs 0)
    execute_instruction_with_result fuel (build_mcr 14 0 0 0 5 0)
  else throwE (.invalidRegisterNumber reg_num)

/-- `Armv7a::read_core_reg`: serve from the cache when the slot is
occupied; otherwise run the uncached path and, on success, fill the slot
with `(value, dirty := false)`. -/
def read_core_reg (fuel reg_num : Nat) : M Nat := do
  let s ← getSys
  match (if reg_num < 17 then s.registerCache reg_num else none) with
  | some c => pure c.1
  | none => do
    let v ← read_core_reg_uncached fuel reg_num
    setCache reg_num (some (v, false))
    pure v

/-- `Armv7a::write_core_reg`: check the value fits in 32 bits and the index
in the 17-slot cache, then set the slot to `(value, dirty := true)`.  No
bus traffic. -/
def write_core_reg (reg_num value : Nat) : M Unit := do
  if value ≥ 2^32 then throwE .valueOutOfRange else do
  let _ ← getSys
  if reg_num ≥ 17 then throwE (.invalidRegisterNumber reg_num)
  else setCache reg_num (some (value, true))

/-- `Armv7a::wait_for_core_halted`: poll DBGDSCR.HALTED; the `timeout`
duration is modelled as the number of polls allowed. -/
def wait_for_core_halted (timeout : Nat) : M Unit :=
  match timeout with
  | 0 => throwE .timeout
  | n + 1 => do
    let s ← getSys
    let w ← busRead (Dbgdscr.get_mmio_address s.baseAddress)
    if w.testBit 0 then pure () else wait_for_core_halted n

/-- Method-of-entry decoding (`Dbgdscr::halt_reason`).  Modelled from the
spec: the MOE encodings are the ARM ARM ones listed in §3; the field itself
lives in `armv7a_debug_regs.rs`, which is not under `src/`. -/
def haltReasonOfMoe (moe : Nat) : HaltReason :=
  match moe with
  | 0 => .request
  | 1 => .breakpoint
  | 2 => .watchpoint
  | 3 => .breakpoint
  | 4 => .external
  | 5 => .exception
  | 10 => .watchpoint
  | _ => .unknown

/-- `Armv7a::status`: read DBGDSCR, record and return
`Halted(reason)`/`Running`. -/
def status : M CoreStatus := do
  let s ← getSys
  let w ← busRead (Dbgdscr.get_mmio_address s.baseAddress)
  if w.testBit 0 then do
    let reason := haltReasonOfMoe ((w / 4) % 16)
    modifySys (fun s => { s with currentState := .halted reason })
    pure (.halted reason)
  else do
    modifySys (fun s => { s with currentState := .running })
    pure .running

/-- The tail of `Armv7a::halt` (shared by both of its paths): refresh the
status, then read and return the PC. -/
def halt_finish (fuel : Nat) : M Nat := do
  let _ ← status
  read_core_reg fuel 15

/-- `Armv7a::halt`: unless already believed halted, request a halt through
DBGDRCR.HRQ, wait, and clear the register cache; then refresh status and
read the PC back. -/
def halt (fuel timeout : Nat) : M Nat := do
  let s ← getSys
  if !s.currentState.is_halted then do
    busWrite (Dbgdrcr.get_mmio_address s.baseAddress) 1
    wait_for_core_halted timeout
    reset_register_cache
    halt_finish fuel
  else halt_finish fuel

/-- `Armv7a::run`: no-op when already running; otherwise write back dirty
registers, request restart through DBGDRCR.RRQ, wait for RESTARTED, and
refresh status. -/
def run (fuel : Nat) : M Unit := do
  let s ← getSys
  if s.currentState = .running then pure ()
  else do
    writeback_registers fuel
    busWrite (Dbgdrcr.get_mmio_address s.baseAddress) 2
    let _ ← pollDscr fuel (fun w => w.testBit 1)
    modifySys (fun s => { s with currentState := .running })
    let _ ← status
    pure ()

/-- `Armv7a::reset`: delegate the system reset to the external debug
sequence (not under `src/`; taken as an arbitrary device transformation),
then clear the register cache. -/
def reset (resetSystem : Device → Device) : M Unit := do
  modifySys (fun s => { s with dev := resetSystem s.dev })
  reset_register_cache

/-- `Armv7a::reset_and_halt`: reset-catch set, system reset, halt request,
reset-catch clear, wait, status refresh, cache clear, PC read.  The three
debug-sequence hooks are not under `src/` and are taken as arbitrary device
transformations. -/
def reset_and_halt (fuel timeout : Nat)
    (resetCatchSet resetSystem resetCatchClear : Device → Device) : M Nat := do
  modifySys (fun s => { s with dev := resetCatchSet s.dev })
  modifySys (fun s => { s with dev := resetSystem s.dev })
  let s ← getSys
  busWrite (Dbgdrcr.get_mmio_address s.baseAddress) 1
  modifySys (fun s => { s with dev := resetCatchClear s.dev })
  wait_for_core_halted timeout
  let _ ← status
  reset_register_cache
  read_core_reg fuel 15

/-- `Armv7a::available_breakpoint_units`: lazily read DBGDIDR.BRPS and
cache BRPS + 1. -/
def available_breakpoint_units : M Nat := do
  let s ← getSys
  match s.numBreakpoints with
  | some n => pure n
  | none => do
    let w ← busRead (Dbgdidr.get_mmio_address s.baseAddress)
    let n := (w / 2^24) % 16 + 1
    modifySys (fun s => { s with numBreakpoints := some n })
    pure n

/-- `valid_32_address` (from `crate::memory`, not under `src/`; modelled
from the spec's §7 InvalidAddress error): addresses above `0xFFFF_FFFF` are
rejected. -/
def valid_32_address (addr : Nat) : M Nat :=
  if addr < 2^32 then pure addr else throwE .invalidAddress

/-- The DBGBCR word `set_hw_breakpoint` programs: E = 1, PMC = 0b11,
BAS = 0b1111, HMC = 1, BT = 0b0000 (address match). -/
def bcrMatchWord : Nat := 1 + 0b11 * 2 + 0b1111 * 2^5 + 2^13

/-- `Armv7a::set_hw_breakpoint`: validate the address and program
DBGBVR[unit] / DBGBCR[unit]. -/
def set_hw_breakpoint (bp_unit_index addr : Nat) : M Unit := do
  let addr ← valid_32_address addr
  let s ← getSys
  busWrite (Dbgbvr.get_mmio_address s.baseAddress + bp_unit_index * 4) addr
  busWrite (Dbgbcr.get_mmio_address s.baseAddress + bp_unit_index * 4) bcrMatchWord

/-- `Armv7a::clear_hw_breakpoint`: zero both unit registers. -/
def clear_hw_breakpoint (bp_unit_index : Nat) : M Unit := do
  let s ← getSys
  busWrite (Dbgbvr.get_mmio_address s.baseAddress + bp_unit_index * 4) 0
  busWrite (Dbgbcr.get_mmio_address s.baseAddress + bp_unit_index * 4) 0

/-- The unit loop of `hw_breakpoints`: for each of `count` units starting
at `i`, read DBGBVR and DBGBCR and report `some value` exactly when
DBGBCR.E is set. -/
def hwBreakpointsLoop : Nat → Nat → M (List (Option Nat))
  | 0, _ => pure []
  | count + 1, i => do
    let s ← getSys
    let v ← busRead (Dbgbvr.get_mmio_address s.baseAddress + i * 4)
    let c ← busRead (Dbgbcr.get_mmio_address s.baseAddress + i * 4)
    let rest ← hwBreakpointsLoop count (i + 1)
    pure ((if c.testBit 0 then some v else none) :: rest)

/-- `Armv7a::hw_breakpoints`. -/
def hw_breakpoints : M (List (Option Nat)) := do
  let n ← available_breakpoint_units
  hwBreakpointsLoop n 0

/-- `Armv7a::on_session_stop`: best-effort write-back when halted. -/
def on_session_stop (fuel : Nat) : M Unit := do
  let s ← getSys
  if s.currentState.is_halted then writeback_registers fuel else pure ()

/-- `MemoryInterface::read_word_32` for `Armv7a`: save R0, point it at the
address, stream one word out through `LDC p14,c5,[r0],#4`. -/
def read_word_32 (fuel addr : Nat) : M Nat := do
  let addr ← valid_32_address addr
  prepare_r0_for_clobber fuel
  set_r0 fuel addr
  execute_instruction_with_result fuel (build_ldc 14 5 0 4)

/-- Byte `i` of a 32-bit word in little-endian order. -/
def leByte (w i : Nat) : Nat := (w / 2^(8 * i)) % 256

/-- `MemoryInterface::read_word_8`: read the enclosing word and pick the
little-endian byte. -/
def read_word_8 (fuel addr : Nat) : M Nat := do
  let byte_offset := addr % 4
  let word_start := addr - byte_offset
  let data ← read_word_32 fuel word_start
  pure (leByte data byte_offset)

/-- `MemoryInterface::write_word_32`: save R0, point it at the address,
stream the word in through `STC p14,c5,[r0],#4`. -/
def write_word_32 (fuel addr data : Nat) : M Unit := do
  let addr ← valid_32_address addr
  prepare_r0_for_clobber fuel
  set_r0 fuel addr
  execute_instruction_with_input fuel (build_stc 14 5 0 4) data

/-- Replace little-endian byte `i` of `w` by `b`. -/
def setLeByte (w i b : Nat) : Nat :=
  w % 2^(8 * i) + b * 2^(8 * i) + w / 2^(8 * (i + 1)) * 2^(8 * (i + 1))

/-- `MemoryInterface::write_word_8`: read-modify-write the enclosing word. -/
def write_word_8 (fuel addr data : Nat) : M Unit := do
  let byte_offset := addr % 4
  let word_start := addr - byte_offset
  let current_word ← read_word_32 fuel word_start
  write_word_32 fuel word_start (setLeByte current_word byte_offset data)

/-- The loop of `MemoryInterface::read_8`: `data[i] = read_word_8(addr + i)`. -/
def read_8_loop (fuel addr : Nat) : Nat → Nat → M (List Nat)
  | 0, _ => pure []
  | count + 1, i => do
    let b ← read_word_8 fuel (addr + i)
    let rest ← read_8_loop fuel addr count (i + 1)
    pure (b :: rest)

/-- `MemoryInterface::read_8` for `Armv7a`: `len` bytes from `addr`. -/
def read_8 (fuel addr len : Nat) : M (List Nat) :=
  read_8_loop fuel addr len 0

/-- The loop of `MemoryInterface::write_8`.  Note the source strides the
destination address by 4 per byte: `write_word_8(address + (i as u64) * 4,
*byte)`. -/
def write_8_loop (fuel addr : Nat) : List Nat → Nat → M Unit
  | [], _ => pure ()
  | byte :: rest, i => do
    write_word_8 fuel (addr + i * 4) byte
    write_8_loop fuel addr rest (i + 1)

/-- `MemoryInterface::write_8` for `Armv7a`. -/
def write_8 (fuel addr : Nat) (data : List Nat) : M Unit :=
  write_8_loop fuel addr data 0

/-- The byte-array write the spec describes (§4.4.10 Bulk, and the claim):
`write_word_8(addr + i, data[i])` for `i = 0, 1, …` in increasing order —
consecutive bytes at consecutive byte addresses, matching `read_8`. -/
def write_8_spec_loop (fuel addr : Nat) : List Nat → Nat → M Unit
  | [], _ => pure ()
  | byte :: rest, i => do
    write_word_8 fuel (addr + i) byte
    write_8_spec_loop fuel addr rest (i + 1)

/-- The spec's bulk byte write (stride 1). -/
def write_8_spec (fuel addr : Nat) (data : List Nat) : M Unit :=
  write_8_spec_loop fuel addr data 0

/-! ## Concrete states for witnesses and counterexamples -/

/-- A concrete halted device: R0 = `r0`, PC = `pc`, CPSR = 0x10 (A32 user
mode), 4 breakpoint units (BRPS = 3), all memory and breakpoint registers
zero, debug channels idle. -/
def mkDevice (haltedFlag itrenFlag : Bool) (r0 pc : Nat) : Device where
  regs := fun i => if i = 0 then r0 else 0
  pc := pc
  cpsr := 0x10
  halted := haltedFlag
  restarted := false
  itren := itrenFlag
  moe := 0
  dtrtx := 0
  txfull := false
  dtrrx := 0
  rxfull := false
  instrcoml := false
  sdabort := false
  adabort := false
  brps := 3
  bvr := fun _ => 0
  bcr := fun _ => 0
  mem := fun _ => 0

/-- A concrete session at base `0x8000_1000` (the unit tests' base) wrapped
around `d`, with an empty register cache and an empty trace. -/
def mkSys (d : Device) (st : CoreStatus) (itrEnabledFlag : Bool) : Sys where
  baseAddress := 0x80001000
  dev := d
  currentState := st
  registerCache := fun _ => none
  itrEnabled := itrEnabledFlag
  numBreakpoints := none
  trace := []

/-- A session whose 17-slot cache is clean except for a dirty CPSR slot 16
holding 7, over a halted concrete device: the state the C2 claim speaks
about when write-back runs. -/
def dirtyCpsrSys : Sys :=
  { mkSys (mkDevice true true 0 0) (.halted .request) true with
      registerCache := fun i => if i = 16 then some (7, true) else none }

/-- A session believed (and actually) running, R0 = `r0`, PC = `pc`. -/
def runningSys (r0 pc : Nat) : Sys := mkSys (mkDevice false true r0 pc) .running true

/-- A halted session in which an earlier `read_core_reg(0)` has left slot 0
holding the architectural R0 value 0x55 with `dirty = false`, and the
device's R0 still is 0x55: the C1 claim's "slot 0 already holds a clean
cached value" situation.  PC = 0x1000. -/
def cleanR0Sys : Sys :=
  { mkSys (mkDevice true true 0x55 0x1000) (.halted .request) true with
      registerCache := fun i => if i = 0 then some (0x55, false) else none }

/-- A halted session with R0 saved dirty in slot 0 and all memory zero:
the starting point for the C6 byte-write scenario. -/
def memWriteSys : Sys :=
  { mkSys (mkDevice true true 0 0) (.halted .request) true with
      registerCache := fun i => if i = 0 then some (0, true) else none }

/-- A halted session with an empty register cache and PC = 0xABCD: the C4
witness scenario (spec §8, scenario 3). -/
def pcReadSys : Sys := mkSys (mkDevice true true 0x77 0xABCD) (.halted .request) true

/-- A halted session in which an earlier PC read has left slot 15 cached
clean: the cheap C3 counterexample state. -/
def haltedCachedPcSys : Sys :=
  { mkSys (mkDevice true true 0 0x1000) (.halted .request) true with
      registerCache := fun i => if i = 15 then some (0x1000, false) else none }

/-- A halted session whose breakpoint-unit count (4) is already cached. -/
def bpSys : Sys :=
  { mkSys (mkDevice true true 0 0) (.halted .request) true with numBreakpoints := some 4 }

/-- `m` preserves the session constants and only prepends to the bus
trace: the base address survives and the old trace is a suffix of the new
one, whether `m` succeeds or fails. -/
def StepOk {α : Type} (m : M α) : Prop :=
  ∀ s, ((m s).2.baseAddress = s.baseAddress) ∧ ∃ t, (m s).2.trace = t ++ s.trace

/-- `m` leaves the register cache untouched, whether it succeeds or
fails. -/
def PreservesCache {α : Type} (m : M α) : Prop :=
  ∀ s, (m s).2.registerCache = s.registerCache

/-! ## Running the monad: unfolding lemmas -/

theorem M.run_bind {α β : Type} (m : M α) (f : α → M β) (s : Sys) :
    (m >>= f) s = match m s with
      | (Except.ok a, s') => f a s'
      | (Except.error e, s') => (Except.error e, s') := rfl

theorem M.run_pure {α : Type} (a : α) (s : Sys) :
    (pure a : M α) s = (Except.ok a, s) := rfl

theorem M.run_getSys (s : Sys) : getSys s = (Except.ok s, s) := rfl

theorem M.run_modifySys (f : Sys → Sys) (s : Sys) :
    modifySys f s = (Except.ok (), f s) := rfl

theorem M.run_throwE {α : Type} (e : DrvError) (s : Sys) :
    (throwE e : M α) s = (Except.error e, s) := rfl

theorem M.run_setCache (i : Nat) (e : Option (Nat × Bool)) (s : Sys) :
    setCache i e s =
      (Except.ok (), { s with registerCache := fun j => if j = i then e else s.registerCache j }) :=
  rfl

theorem M.run_busRead (addr : Nat) (s : Sys) :
    busRead addr s =
      (match devRead s.baseAddress s.dev addr with
       | (v, d') =>
         (Except.ok v, { s with dev := d', trace := BusOp.readW addr v :: s.trace })) :=
  rfl

theorem M.run_busWrite (addr val : Nat) (s : Sys) :
    busWrite addr val s =
      (Except.ok (), { s with dev := devWrite s.baseAddress s.dev addr val,
                              trace := BusOp.writeW addr val :: s.trace }) :=
  rfl

/-! ## Frame lemmas: base address, trace growth, cache preservation -/

theorem stepOk_pure {α : Type} (a : α) : StepOk (pure a : M α) :=
  fun _ => ⟨rfl, [], rfl⟩

theorem stepOk_throwE {α : Type} (e : DrvError) : StepOk (throwE e : M α) :=
  fun _ => ⟨rfl, [], rfl⟩

theorem stepOk_getSys : StepOk getSys :=
  fun _ => ⟨rfl, [], rfl⟩

theorem stepOk_bind {α β : Type} {m : M α} {f : α → M β}
    (hm : StepOk m) (hf : ∀ a, StepOk (f a)) : StepOk (m >>= f) := by
  intro s
  rw [M.run_bind]
  rcases hres : m s with ⟨res, s1⟩
  obtain ⟨hb1, t1, ht1⟩ := hm s
  rw [hres] at hb1 ht1
  cases res with
  | error e => exact ⟨hb1, t1, ht1⟩
  | ok a =>
    obtain ⟨hb2, t2, ht2⟩ := hf a s1
    exact ⟨hb2.trans hb1, t2 ++ t1, by rw [ht2, ht1, List.append_assoc]⟩

theorem stepOk_ite {α : Type} {c : Prop} [Decidable c] {a b : M α}
    (ha : StepOk a) (hb : StepOk b) : StepOk (if c then a else b) := by
  intro s
  by_cases h : c
  · rw [if_pos h]; exact ha s
  · rw [if_neg h]; exact hb s

theorem stepOk_busRead (addr : Nat) : StepOk (busRead addr) := by
  intro s
  unfold busRead
  rcases hdr : devRead s.baseAddress s.dev addr with ⟨v, d'⟩
  exact ⟨rfl, [BusOp.readW addr v], rfl⟩

theorem stepOk_busWrite (addr val : Nat) : StepOk (busWrite addr val) :=
  fun _ => ⟨rfl, [BusOp.writeW addr val], rfl⟩

theorem stepOk_modifySys (f : Sys → Sys)
    (hf : ∀ s, (f s).baseAddress = s.baseAddress ∧ (f s).trace = s.trace) :
    StepOk (modifySys f) :=
  fun s => ⟨(hf s).1, [], by rw [M.run_modifySys]; rw [(hf s).2]; rfl⟩

theorem stepOk_setCache (i : Nat) (e : Option (Nat × Bool)) : StepOk (setCache i e) :=
  fun _ => ⟨rfl, [], rfl⟩

theorem stepOk_reset_register_cache : StepOk reset_register_cache :=
  fun _ => ⟨rfl, [], rfl⟩

theorem stepOk_pollDscr (fuel : Nat) (p : Nat → Bool) : StepOk (pollDscr fuel p) := by
  induction fuel with
  | zero => exact stepOk_throwE _
  | succ n ih =>
    unfold pollDscr
    exact stepOk_bind stepOk_getSys fun s =>
      stepOk_bind (stepOk_busRead _) fun w => stepOk_ite (stepOk_pure _) ih

theorem stepOk_pollDscrFrom (fuel : Nat) (p : Nat → Bool) (w : Nat) :
    StepOk (pollDscrFrom fuel p w) := by
  unfold pollDscrFrom
  exact stepOk_ite (stepOk_pure _) (stepOk_pollDscr _ _)

theorem stepOk_enable_itr : StepOk enable_itr_if_needed := by
  unfold enable_itr_if_needed
  exact stepOk_bind stepOk_getSys fun s =>
    stepOk_ite
      (stepOk_bind (stepOk_busRead _) fun _ =>
        stepOk_bind (stepOk_busWrite _ _) fun _ =>
          stepOk_modifySys _ (fun _ => ⟨rfl, rfl⟩))
      (stepOk_pure _)

theorem stepOk_execute_instruction (fuel w : Nat) : StepOk (execute_instruction fuel w) := by
  unfold execute_instruction
  exact stepOk_bind stepOk_getSys fun s =>
    stepOk_ite (stepOk_throwE _)
      (stepOk_bind stepOk_enable_itr fun _ =>
        stepOk_bind (stepOk_busWrite _ _) fun _ =>
          stepOk_bind (stepOk_pollDscr _ _) fun w =>
            stepOk_ite
              (stepOk_bind (stepOk_busWrite _ _) fun _ => stepOk_throwE _)
              (stepOk_pure _))

theorem stepOk_execute_instruction_with_result (fuel w : Nat) :
    StepOk (execute_instruction_with_result fuel w) := by
  unfold execute_instruction_with_result
  exact stepOk_bind (stepOk_execute_instruction _ _) fun w =>
    stepOk_bind (stepOk_pollDscrFrom _ _ _) fun _ =>
      stepOk_bind stepOk_getSys fun s => stepOk_busRead _

theorem stepOk_execute_instruction_with_input (fuel w v : Nat) :
    StepOk (execute_instruction_with_input fuel w v) := by
  unfold execute_instruction_with_input
  exact stepOk_bind stepOk_getSys fun s =>
    stepOk_bind (stepOk_busWrite _ _) fun _ =>
      stepOk_bind (stepOk_pollDscr _ _) fun _ =>
        stepOk_bind (stepOk_execute_instruction _ _) fun _ => stepOk_pure _

theorem stepOk_status : StepOk status := by
  unfold status
  exact stepOk_bind stepOk_getSys fun s =>
    stepOk_bind (stepOk_busRead _) fun w =>
      stepOk_ite
        (stepOk_bind (stepOk_modifySys _ (fun _ => ⟨rfl, rfl⟩)) fun _ => stepOk_pure _)
        (stepOk_bind (stepOk_modifySys _ (fun _ => ⟨rfl, rfl⟩)) fun _ => stepOk_pure _)

theorem stepOk_wait_for_core_halted (timeout : Nat) : StepOk (wait_for_core_halted timeout) := by
  induction timeout with
  | zero => exact stepOk_throwE _
  | succ n ih =>
    unfold wait_for_core_halted
    exact stepOk_bind stepOk_getSys fun s =>
      stepOk_bind (stepOk_busRead _) fun w => stepOk_ite (stepOk_pure _) ih

theorem pcache_pure {α : Type} (a : α) : PreservesCache (pure a : M α) :=
  fun _ => rfl

theorem pcache_throwE {α : Type} (e : DrvError) : PreservesCache (throwE e : M α) :=
  fun _ => rfl

theorem pcache_getSys : PreservesCache getSys :=
  fun _ => rfl

theorem pcache_bind {α β : Type} {m : M α} {f : α → M β}
    (hm : PreservesCache m) (hf : ∀ a, PreservesCache (f a)) : PreservesCache (m >>= f) := by
  intro s
  rw [M.run_bind]
  rcases hres : m s with ⟨res, s1⟩
  have h1 := hm s
  rw [hres] at h1
  cases res with
  | error e => exact h1
  | ok a => exact (hf a s1).trans h1

theorem pcache_ite {α : Type} {c : Prop} [Decidable c] {a b : M α}
    (ha : PreservesCache a) (hb : PreservesCache b) : PreservesCache (if c then a else b) := by
  intro s
  by_cases h : c
  · rw [if_pos h]; exact ha s
  · rw [if_neg h]; exact hb s

theorem pcache_busRead (addr : Nat) : PreservesCache (busRead addr) := by
  intro s
  unfold busRead
  rcases hdr : devRead s.baseAddress s.dev addr with ⟨v, d'⟩
  rfl

theorem pcache_busWrite (addr val : Nat) : PreservesCache (busWrite addr val) :=
  fun _ => rfl

theorem pcache_modifySys (f : Sys → Sys)
    (hf : ∀ s, (f s).registerCache = s.registerCache) : PreservesCache (modifySys f) :=
  fun s => hf s

theorem pcache_pollDscr (fuel : Nat) (p : Nat → Bool) : PreservesCache (pollDscr fuel p) := by
  induction fuel with
  | zero => exact pcache_throwE _
  | succ n ih =>
    unfold pollDscr
    exact pcache_bind pcache_getSys fun s =>
      pcache_bind (pcache_busRead _) fun w => pcache_ite (pcache_pure _) ih

theorem pcache_pollDscrFrom (fuel : Nat) (p : Nat → Bool) (w : Nat) :
    PreservesCache (pollDscrFrom fuel p w) := by
  unfold pollDscrFrom
  exact pcache_ite (pcache_pure _) (pcache_pollDscr _ _)

theorem pcache_enable_itr : PreservesCache enable_itr_if_needed := by
  unfold enable_itr_if_needed
  exact pcache_bind pcache_getSys fun s =>
    pcache_ite
      (pcache_bind (pcache_busRead _) fun _ =>
        pcache_bind (pcache_busWrite _ _) fun _ =>
          pcache_modifySys _ (fun _ => rfl))
      (pcache_pure _)

theorem pcache_execute_instruction (fuel w : Nat) :
    PreservesCache (execute_instruction fuel w) := by
  unfold execute_instruction
  exact pcache_bind pcache_getSys fun s =>
    pcache_ite (pcache_throwE _)
      (pcache_bind pcache_enable_itr fun _ =>
        pcache_bind (pcache_busWrite _ _) fun _ =>
          pcache_bind (pcache_pollDscr _ _) fun w =>
            pcache_ite
              (pcache_bind (pcache_busWrite _ _) fun _ => pcache_throwE _)
              (pcache_pure _))

theorem pcache_execute_instruction_with_result (fuel w : Nat) :
    PreservesCache (execute_instruction_with_result fuel w) := by
  unfold execute_instruction_with_result
  exact pcache_bind (pcache_execute_instruction _ _) fun w =>
    pcache_bind (pcache_pollDscrFrom _ _ _) fun _ =>
      pcache_bind pcache_getSys fun s => pcache_busRead _

theorem pcache_execute_instruction_with_input (fuel w v : Nat) :
    PreservesCache (execute_instruction_with_input fuel w v) := by
  unfold execute_instruction_with_input
  exact pcache_bind pcache_getSys fun s =>
    pcache_bind (pcache_busWrite _ _) fun _ =>
      pcache_bind (pcache_pollDscr _ _) fun _ =>
        pcache_bind (pcache_execute_instruction _ _) fun _ => pcache_pure _

theorem pcache_status : PreservesCache status := by
  unfold status
  exact pcache_bind pcache_getSys fun s =>
    pcache_bind (pcache_busRead _) fun w =>
      pcache_ite
        (pcache_bind (pcache_modifySys _ (fun _ => rfl)) fun _ => pcache_pure _)
        (pcache_bind (pcache_modifySys _ (fun _ => rfl)) fun _ => pcache_pure _)

theorem pcache_wait_for_core_halted (timeout : Nat) :
    PreservesCache (wait_for_core_halted timeout) := by
  induction timeout with
  | zero => exact pcache_throwE _
  | succ n ih =>
    unfold wait_for_core_halted
    exact pcache_bind pcache_getSys fun s =>
      pcache_bind (pcache_busRead _) fun w => pcache_ite (pcache_pure _) ih

theorem busWrite_trace (a v : Nat) (t : Sys) :
    (busWrite a v t).2.trace = BusOp.writeW a v :: t.trace := rfl

theorem busRead_run_spec (a : Nat) (t : Sys) :
    ∃ v t', busRead a t = (Except.ok v, t') ∧ t'.trace = BusOp.readW a v :: t.trace ∧
      t'.baseAddress = t.baseAddress ∧ t'.registerCache = t.registerCache := by
  unfold busRead
  rcases hdr : devRead t.baseAddress t.dev a with ⟨v, d'⟩
  exact ⟨v, _, rfl, rfl, rfl, rfl⟩

theorem mem_after_run {α : Type} {m : M α} (hm : StepOk m) {x : BusOp} {t t' : Sys}
    {res : Except DrvError α} (hrun : m t = (res, t')) (hx : x ∈ t.trace) :
    x ∈ t'.trace := by
  obtain ⟨-, tr, htr⟩ := hm t
  rw [hrun] at htr
  rw [htr]
  exact List.mem_append_right _ hx

theorem base_after_run {α : Type} {m : M α} (hm : StepOk m) {t t' : Sys}
    {res : Except DrvError α} (hrun : m t = (res, t')) :
    t'.baseAddress = t.baseAddress := by
  obtain ⟨hb, -⟩ := hm t
  rw [hrun] at hb
  exact hb

theorem cache_after_run {α : Type} {m : M α} (hm : PreservesCache m) {t t' : Sys}
    {res : Except DrvError α} (hrun : m t = (res, t')) :
    t'.registerCache = t.registerCache := by
  have hc := hm t
  rw [hrun] at hc
  exact hc

theorem stepOk_read_core_reg_r0 (fuel : Nat) : StepOk (read_core_reg_r0 fuel) := by
  unfold read_core_reg_r0
  refine stepOk_bind stepOk_getSys fun s => ?_
  rcases s.registerCache 0 with _ | c
  · exact stepOk_bind (stepOk_execute_instruction_with_result _ _) fun v =>
      stepOk_bind (stepOk_setCache _ _) fun _ => stepOk_pure _
  · exact stepOk_pure _

theorem stepOk_prepare_r0 (fuel : Nat) : StepOk (prepare_r0_for_clobber fuel) := by
  unfold prepare_r0_for_clobber
  refine stepOk_bind stepOk_getSys fun s => ?_
  rcases s.registerCache 0 with _ | c
  · exact stepOk_bind (stepOk_read_core_reg_r0 _) fun v => stepOk_setCache _ _
  · exact stepOk_pure _

/-- A successful `execute_instruction` wrote the instruction word to
DBGITR. -/
theorem exec_itr_write_mem {fuel w : Nat} {s s' : Sys} {r : Nat}
    (h : execute_instruction fuel w s = (Except.ok r, s')) :
    BusOp.writeW (Dbgitr.get_mmio_address s.baseAddress) w ∈ s'.trace := by
  unfold execute_instruction at h
  rw [M.run_bind, M.run_getSys] at h
  dsimp only at h
  by_cases hh : (!s.currentState.is_halted) = true
  · rw [if_pos hh] at h
    rw [M.run_throwE] at h
    simp at h
  · rw [if_neg hh] at h
    rw [M.run_bind] at h
    rcases he : enable_itr_if_needed s with ⟨res1, s1⟩
    rw [he] at h
    cases res1 with
    | error e => simp at h
    | ok u =>
      dsimp only at h
      rw [M.run_bind] at h
      rcases hb : busWrite (Dbgitr.get_mmio_address s.baseAddress) w s1 with ⟨res2, s2⟩
      rw [hb] at h
      cases res2 with
      | error e => simp at h
      | ok u2 =>
        dsimp only at h
        have hmem : BusOp.writeW (Dbgitr.get_mmio_address s.baseAddress) w ∈ s2.trace := by
          have ht := busWrite_trace (Dbgitr.get_mmio_address s.baseAddress) w s1
          rw [hb] at ht
          rw [ht]
          exact List.mem_cons_self _ _
        have hrest : StepOk ((pollDscr fuel (fun w => w.testBit 24)) >>= fun w =>
            if w.testBit 7 || w.testBit 6 then
              busWrite (Dbgdrcr.get_mmio_address s.baseAddress) (2^2) >>= fun _ =>
                throwE .dataAbort
            else pure w) :=
          stepOk_bind (stepOk_pollDscr _ _) fun w =>
            stepOk_ite (stepOk_bind (stepOk_busWrite _ _) fun _ => stepOk_throwE _)
              (stepOk_pure _)
        exact mem_after_run hrest h hmem

/-- A successful `execute_instruction_with_result` wrote the instruction
to DBGITR and read the returned value out of DBGDTRTX. -/
theorem exec_result_ok_spec {fuel w : Nat} {s s' : Sys} {r : Nat}
    (h : execute_instruction_with_result fuel w s = (Except.ok r, s')) :
    BusOp.writeW (Dbgitr.get_mmio_address s.baseAddress) w ∈ s'.trace ∧
      BusOp.readW (Dbgdtrtx.get_mmio_address s.baseAddress) r ∈ s'.trace := by
  unfold execute_instruction_with_result at h
  rw [M.run_bind] at h
  rcases he : execute_instruction fuel w s with ⟨res1, s1⟩
  rw [he] at h
  cases res1 with
  | error e => simp at h
  | ok w1 =>
    dsimp only at h
    rw [M.run_bind] at h
    rcases hp : pollDscrFrom fuel (fun w => w.testBit 26) w1 s1 with ⟨res2, s2⟩
    rw [hp] at h
    cases res2 with
    | error e => simp at h
    | ok w2 =>
      dsimp only at h
      rw [M.run_bind, M.run_getSys] at h
      dsimp only at h
      obtain ⟨v, t', hbr, htr, hbase, -⟩ :=
        busRead_run_spec (Dbgdtrtx.get_mmio_address s2.baseAddress) s2
      rw [hbr] at h
      simp only [Prod.mk.injEq, Except.ok.injEq] at h
      obtain ⟨hv, hs'⟩ := h
      have hb1 : s1.baseAddress = s.baseAddress := base_after_run (stepOk_execute_instruction _ _) he
      have hb2 : s2.baseAddress = s1.baseAddress := base_after_run (stepOk_pollDscrFrom _ _ _) hp
      have hbase2 : s2.baseAddress = s.baseAddress := hb2.trans hb1
      have hitr : BusOp.writeW (Dbgitr.get_mmio_address s.baseAddress) w ∈ s2.trace :=
        mem_after_run (stepOk_pollDscrFrom _ _ _) hp (exec_itr_write_mem he)
      constructor
      · rw [← hs']
        rw [htr]
        exact List.mem_cons_of_mem _ hitr
      · rw [← hs']
        rw [htr, hbase2, hv]
        exact List.mem_cons_self _ _

/-- `read_core_reg_r0` never touches any slot other than 0. -/
theorem read_r0_cache_frame {fuel : Nat} {s sQ : Sys} {res : Except DrvError Nat}
    (h : read_core_reg_r0 fuel s = (res, sQ)) :
    ∀ i, i ≠ 0 → sQ.registerCache i = s.registerCache i := by
  intro i hi
  unfold read_core_reg_r0 at h
  rw [M.run_bind, M.run_getSys] at h
  dsimp only at h
  rcases hc0 : s.registerCache 0 with _ | c
  · rw [hc0] at h
    dsimp only at h
    rw [M.run_bind] at h
    rcases hx : execute_instruction_with_result fuel (build_mcr 14 0 0 0 5 0) s
      with ⟨resX, sX⟩
    rw [hx] at h
    have hcX : sX.registerCache = s.registerCache :=
      cache_after_run (pcache_execute_instruction_with_result _ _) hx
    cases resX with
    | error e =>
      simp only [Prod.mk.injEq] at h
      rw [← h.2, hcX]
    | ok w =>
      dsimp only at h
      rw [M.run_bind, M.run_setCache] at h
      dsimp only at h
      rw [M.run_pure] at h
      simp only [Prod.mk.injEq] at h
      rw [← h.2]
      simp only [hi, if_false]
      rw [hcX]
  · rw [hc0] at h
    dsimp only at h
    rw [M.run_pure] at h
    simp only [Prod.mk.injEq] at h
    rw [← h.2]

/-- A successful `prepare_r0_for_clobber`: if slot 0 was empty it now holds
some value marked dirty; an occupied slot 0 — dirty or clean — is left
exactly as it was; no other slot changes. -/
theorem prepare_cache_spec {fuel : Nat} {s sP : Sys} {u : Unit}
    (h : prepare_r0_for_clobber fuel s = (Except.ok u, sP)) :
    (s.registerCache 0 = none → ∃ w, sP.registerCache 0 = some (w, true)) ∧
      (∀ p, s.registerCache 0 = some p → sP = s) ∧
      (∀ i, i ≠ 0 → sP.registerCache i = s.registerCache i) := by
  unfold prepare_r0_for_clobber at h
  rw [M.run_bind, M.run_getSys] at h
  dsimp only at h
  rcases hc0 : s.registerCache 0 with _ | c
  · rw [hc0] at h
    dsimp only at h
    rw [M.run_bind] at h
    rcases hr0 : read_core_reg_r0 fuel s with ⟨resR, sQ⟩
    rw [hr0] at h
    cases resR with
    | error e => simp at h
    | ok w =>
      dsimp only at h
      rw [M.run_setCache] at h
      simp only [Prod.mk.injEq] at h
      obtain ⟨-, hsP⟩ := h
      refine ⟨fun _ => ⟨w, by rw [← hsP]; simp⟩, ?_, ?_⟩
      · intro p hp
        exact Option.noConfusion hp
      · intro i hi
        rw [← hsP]
        have := read_r0_cache_frame hr0 i hi
        simp only [hi, if_false]
        exact this
  · rw [hc0] at h
    dsimp only at h
    rw [M.run_pure] at h
    simp only [Prod.mk.injEq] at h
    obtain ⟨-, hsP⟩ := h
    exact ⟨fun hnone => Option.noConfusion hnone,
      fun p hp => hsP.symm, fun i hi => by rw [← hsP]⟩

set_option maxRecDepth 4000 in
/-- A successful uncached PC read: the value returned is the DBGDTRTX word
(the PC the core saw at the `MOV r0, PC`) minus 8 in u32 arithmetic; the
MOV and MCR instruction words went through DBGITR; and the only cache slot
it may touch is the R0 save in slot 0. -/
theorem read15_uncached_spec {fuel : Nat} {s sU : Sys} {a : Nat}
    (h : read_core_reg_uncached fuel 15 s = (Except.ok a, sU)) :
    (∃ pra, a = (pra + (2^32 - 8)) % 2^32 ∧
      BusOp.writeW (Dbgitr.get_mmio_address s.baseAddress) (build_mov 0 15) ∈ sU.trace ∧
      BusOp.writeW (Dbgitr.get_mmio_address s.baseAddress) (build_mcr 14 0 0 0 5 0) ∈ sU.trace ∧
      BusOp.readW (Dbgdtrtx.get_mmio_address s.baseAddress) pra ∈ sU.trace) ∧
    (s.registerCache 0 = none → ∃ w, sU.registerCache 0 = some (w, true)) ∧
    (∀ i, i ≠ 0 → sU.registerCache i = s.registerCache i) ∧
    (∀ p, s.registerCache 0 = some p → sU.registerCache 0 = some p) := by
  unfold read_core_reg_uncached at h
  rw [if_neg (by omega), if_pos rfl] at h
  rw [M.run_bind] at h
  rcases hpre : prepare_r0_for_clobber fuel s with ⟨resP, sP⟩
  rw [hpre] at h
  cases resP with
  | error e => simp at h
  | ok u =>
    dsimp only at h
    rw [M.run_bind] at h
    rcases hm : execute_instruction fuel (build_mov 0 15) sP with ⟨resM, sM⟩
    rw [hm] at h
    cases resM with
    | error e => simp at h
    | ok w1 =>
      dsimp only at h
      rw [M.run_bind] at h
      rcases hr : execute_instruction_with_result fuel (build_mcr 14 0 0 0 5 0) sM
        with ⟨resR, sR⟩
      rw [hr] at h
      cases resR with
      | error e => simp at h
      | ok pra =>
        dsimp only at h
        rw [M.run_pure] at h
        simp only [Prod.mk.injEq, Except.ok.injEq] at h
        obtain ⟨ha, hsU⟩ := h
        have hbP : sP.baseAddress = s.baseAddress :=
          base_after_run (stepOk_prepare_r0 _) hpre
        have hbM : sM.baseAddress = s.baseAddress :=
          (base_after_run (stepOk_execute_instruction _ _) hm).trans hbP
        obtain ⟨hmcr, hdtr⟩ := exec_result_ok_spec hr
        have hmov : BusOp.writeW (Dbgitr.get_mmio_address s.baseAddress)
            (build_mov 0 15) ∈ sR.trace := by
          have := exec_itr_write_mem hm
          rw [hbP] at this
          exact mem_after_run (stepOk_execute_instruction_with_result _ _) hr this
        obtain ⟨hc0_spec, hsome_spec, hframe⟩ := prepare_cache_spec hpre
        have hcM : sM.registerCache = sP.registerCache :=
          cache_after_run (pcache_execute_instruction _ _) hm
        have hcR : sR.registerCache = sP.registerCache :=
          (cache_after_run (pcache_execute_instruction_with_result _ _) hr).trans hcM
        subst hsU
        refine ⟨⟨pra, ha.symm, hmov, ?_, ?_⟩, ?_, ?_, ?_⟩
        · rw [← hbM]; exact hmcr
        · rw [← hbM]; exact hdtr
        · intro hnone
          obtain ⟨w, hw⟩ := hc0_spec hnone
          exact ⟨w, by rw [hcR]; exact hw⟩
        · intro i hi
          rw [hcR]
          exact hframe i hi
        · intro p hp
          rw [hcR, hsome_spec p hp]
          exact hp

/-- A successful `read_core_reg 15` on an uncached PC slot: the returned
value is the DBGDTRTX observation minus 8 (u32 wrap); slot 15 now caches it
clean; an empty slot 0 got the dirty R0 save; nothing else changed. -/
theorem read15_spec {fuel : Nat} {s s' : Sys} {v : Nat}
    (hc15 : s.registerCache 15 = none)
    (h : read_core_reg fuel 15 s = (Except.ok v, s')) :
    (∃ pra, v = (pra + (2^32 - 8)) % 2^32 ∧
      BusOp.writeW (Dbgitr.get_mmio_address s.baseAddress) (build_mov 0 15) ∈ s'.trace ∧
      BusOp.writeW (Dbgitr.get_mmio_address s.baseAddress) (build_mcr 14 0 0 0 5 0) ∈ s'.trace ∧
      BusOp.readW (Dbgdtrtx.get_mmio_address s.baseAddress) pra ∈ s'.trace) ∧
    s'.registerCache 15 = some (v, false) ∧
    (s.registerCache 0 = none → ∃ w, s'.registerCache 0 = some (w, true)) ∧
    (∀ i, i ≠ 0 → i ≠ 15 → s'.registerCache i = s.registerCache i) ∧
    (∀ p, s.registerCache 0 = some p → s'.registerCache 0 = some p) := by
  unfold read_core_reg at h
  rw [M.run_bind, M.run_getSys] at h
  dsimp only at h
  rw [if_pos (show (15:Nat) < 17 by omega), hc15] at h
  dsimp only at h
  rw [M.run_bind] at h
  rcases hu : read_core_reg_uncached fuel 15 s with ⟨resU, sU⟩
  rw [hu] at h
  cases resU with
  | error e => simp at h
  | ok a =>
    dsimp only at h
    rw [M.run_bind, M.run_setCache] at h
    dsimp only at h
    rw [M.run_pure] at h
    simp only [Prod.mk.injEq, Except.ok.injEq] at h
    obtain ⟨hav, hsU⟩ := h
    obtain ⟨hval, hc0, hframe, hsome⟩ := read15_uncached_spec hu
    subst hav
    refine ⟨?_, ?_, ?_, ?_, ?_⟩
    · obtain ⟨pra, hpra, m1, m2, m3⟩ := hval
      exact ⟨pra, hpra, by rw [← hsU]; exact m1, by rw [← hsU]; exact m2,
        by rw [← hsU]; exact m3⟩
    · rw [← hsU]; simp
    · intro hnone
      obtain ⟨w, hw⟩ := hc0 hnone
      refine ⟨w, ?_⟩
      rw [← hsU]
      simp only [show (0:Nat) ≠ 15 by omega, if_false]
      exact hw
    · intro i hi0 hi15
      rw [← hsU]
      simp only [hi15, if_false]
      exact hframe i hi0
    · intro p hp
      rw [← hsU]
      simp only [show (0:Nat) ≠ 15 by omega, if_false]
      exact hsome p hp

/-- A `halt` that actually had to request the halt (the driver believed
the core running) and succeeded: the final cache holds exactly the PC just
read in slot 15 (clean) and the saved R0 in slot 0 (dirty); every other
slot is empty. -/
theorem halt_cache_spec {fuel timeout : Nat} {s s' : Sys} {v : Nat}
    (hs : s.currentState.is_halted = false)
    (h : halt fuel timeout s = (Except.ok v, s')) :
    s'.registerCache 15 = some (v, false) ∧
      (∃ w, s'.registerCache 0 = some (w, true)) ∧
      ∀ i, i ≠ 0 → i ≠ 15 → s'.registerCache i = none := by
  unfold halt at h
  rw [M.run_bind, M.run_getSys] at h
  dsimp only at h
  rw [hs] at h
  rw [if_pos (by decide)] at h
  rw [M.run_bind] at h
  rcases hb : busWrite (Dbgdrcr.get_mmio_address s.baseAddress) 1 s with ⟨resB, s1⟩
  rw [hb] at h
  cases resB with
  | error e => simp at h
  | ok u1 =>
    dsimp only at h
    rw [M.run_bind] at h
    rcases hw : wait_for_core_halted timeout s1 with ⟨resW, s2⟩
    rw [hw] at h
    cases resW with
    | error e => simp at h
    | ok u2 =>
      dsimp only at h
      rw [M.run_bind] at h
      rw [show reset_register_cache s2 =
        (Except.ok (), { s2 with registerCache := fun _ => none }) from rfl] at h
      dsimp only at h
      unfold halt_finish at h
      rw [M.run_bind] at h
      rcases hst : status { s2 with registerCache := fun _ => none } with ⟨resS, s4⟩
      rw [hst] at h
      cases resS with
      | error e => simp at h
      | ok st =>
        dsimp only at h
        have hc4 : s4.registerCache = fun _ => none :=
          cache_after_run pcache_status hst
        obtain ⟨-, h15, h0, hframe, -⟩ :=
          read15_spec (show s4.registerCache 15 = none from by rw [hc4]) h
        refine ⟨h15, h0 (by rw [hc4]), fun i hi0 hi15 => ?_⟩
        rw [hframe i hi0 hi15, hc4]

/-- A successful `reset_and_halt`: same final cache shape as a fresh
`halt` — the cleared cache repopulated only by the final PC read. -/
theorem reset_and_halt_cache_spec {fuel timeout : Nat}
    {h1 h2 h3 : Device → Device} {s s' : Sys} {v : Nat}
    (h : reset_and_halt fuel timeout h1 h2 h3 s = (Except.ok v, s')) :
    s'.registerCache 15 = some (v, false) ∧
      (∃ w, s'.registerCache 0 = some (w, true)) ∧
      ∀ i, i ≠ 0 → i ≠ 15 → s'.registerCache i = none := by
  unfold reset_and_halt at h
  rw [M.run_bind, M.run_modifySys] at h
  dsimp only at h
  rw [M.run_bind, M.run_modifySys] at h
  dsimp only at h
  rw [M.run_bind, M.run_getSys] at h
  dsimp only at h
  rw [M.run_bind] at h
  rcases hb : busWrite _ 1 _ with ⟨resB, s1⟩
  rw [hb] at h
  cases resB with
  | error e => simp at h
  | ok u1 =>
    dsimp only at h
    rw [M.run_bind, M.run_modifySys] at h
    dsimp only at h
    rw [M.run_bind] at h
    rcases hw : wait_for_core_halted timeout { s1 with dev := h3 s1.dev } with ⟨resW, s2⟩
    rw [hw] at h
    cases resW with
    | error e => simp at h
    | ok u2 =>
      dsimp only at h
      rw [M.run_bind] at h
      rcases hst : status s2 with ⟨resS, s3⟩
      rw [hst] at h
      cases resS with
      | error e => simp at h
      | ok st =>
        dsimp only at h
        rw [M.run_bind] at h
        rw [show reset_register_cache s3 =
          (Except.ok (), { s3 with registerCache := fun _ => none }) from rfl] at h
        dsimp only at h
        obtain ⟨-, h15, h0, hframe, -⟩ :=
          read15_spec (show ({ s3 with registerCache := fun _ => none } : Sys).registerCache 15
            = none from rfl) h
        exact ⟨h15, h0 rfl, fun i hi0 hi15 => hframe i hi0 hi15⟩

/-! ## Cache behaviour of `read_core_reg` -/

/-- A successful `read_core_reg` leaves the value in the slot: on a cache
hit the slot already held `(v, b)`; on a miss the fill writes `(v, false)`
regardless of what the uncached path did to the rest of the state. -/
theorem read_core_reg_ok_slot {fuel r : Nat} {s s' : Sys} {v : Nat}
    (hr : r < 17) (h : read_core_reg fuel r s = (Except.ok v, s')) :
    ∃ b, s'.registerCache r = some (v, b) := by
  unfold read_core_reg at h
  rw [M.run_bind, M.run_getSys] at h
  dsimp only at h
  rw [if_pos hr] at h
  rcases hc : s.registerCache r with _ | c
  · rw [hc] at h
    dsimp only at h
    rw [M.run_bind] at h
    rcases hu : read_core_reg_uncached fuel r s with ⟨res, s1⟩
    rw [hu] at h
    rcases res with e | a
    · simp at h
    · simp only [M.run_bind, M.run_setCache, M.run_pure, Prod.mk.injEq,
        Except.ok.injEq] at h
      rcases h with ⟨h1, h2⟩
      refine ⟨false, ?_⟩
      rw [← h2]
      simp [h1]
  · rw [hc] at h
    dsimp only at h
    rw [M.run_pure] at h
    simp only [Prod.mk.injEq, Except.ok.injEq] at h
    rcases h with ⟨h1, h2⟩
    exact ⟨c.2, by rw [← h2, hc, ← h1]⟩

/-- A `read_core_reg` on an occupied slot returns the cached value and
leaves the whole state — bus trace included — unchanged. -/
theorem read_core_reg_cached {fuel r : Nat} {s : Sys} {v : Nat} {b : Bool}
    (hr : r < 17) (hc : s.registerCache r = some (v, b)) :
    read_core_reg fuel r s = (Except.ok v, s) := by
  unfold read_core_reg
  rw [M.run_bind, M.run_getSys]
  dsimp only
  rw [if_pos hr, hc]
  dsimp only
  rw [M.run_pure]

/-- Running `write_core_reg` on a valid index and in-range value: the only
effect is the cache-slot update. -/
theorem write_core_reg_run {r v : Nat} (s : Sys) (hr : r ≤ 16) (hv : v < 2^32) :
    write_core_reg r v s =
      (Except.ok (),
       { s with registerCache := fun j => if j = r then some (v, true) else s.registerCache j }) := by
  unfold write_core_reg
  rw [if_neg (by omega)]
  rw [M.run_bind, M.run_getSys]
  dsimp only
  rw [if_neg (by omega), M.run_setCache]

/-- A write-back iteration at a clean or empty slot does nothing. -/
theorem writebackSlot_skip (fuel i : Nat) (s : Sys)
    (hcl : ∀ p, s.registerCache i = some p → p.2 = false) :
    writebackSlot fuel i s = (Except.ok (), s) := by
  unfold writebackSlot
  rw [M.run_bind, M.run_getSys]
  dsimp only
  rcases hj : s.registerCache i with _ | ⟨pv, pb⟩
  · rfl
  · have hb : pb = false := hcl (pv, pb) hj
    subst hb
    rfl

/-- A write-back iteration at a dirty slot 16 hits the source's `panic!`. -/
theorem writebackSlot_panic16 (fuel : Nat) (s : Sys) (v : Nat)
    (h : s.registerCache 16 = some (v, true)) :
    writebackSlot fuel 16 s = (Except.error (.logicMissing 16), s) := by
  unfold writebackSlot
  rw [M.run_bind, M.run_getSys]
  dsimp only
  rw [h]
  dsimp only
  rw [if_neg (by decide), if_neg (by decide), if_neg (by decide)]
  rfl

/-- The write-back loop over a window containing slot 16, with every other
slot clean or empty and slot 16 dirty, aborts with the slot-16 panic and
performs no bus traffic. -/
theorem writebackLoop_panics (fuel : Nat) (count : Nat) (i : Nat) (s : Sys) (v : Nat)
    (hdirty : s.registerCache 16 = some (v, true))
    (hclean : ∀ j, j ≠ 16 → ∀ p, s.registerCache j = some p → p.2 = false)
    (hrange : i ≤ 16) (h16 : 16 < i + count) :
    writebackLoop fuel count i s = (Except.error (.logicMissing 16), s) := by
  induction count generalizing i with
  | zero => omega
  | succ n ih =>
    show (writebackSlot fuel i >>= fun _ => writebackLoop fuel n (i + 1)) s = _
    rw [M.run_bind]
    by_cases hi : i = 16
    · subst hi
      rw [writebackSlot_panic16 fuel s v hdirty]
    · rw [writebackSlot_skip fuel i s (hclean i hi)]
      dsimp only
      exact ih (i + 1) (by omega) (by omega)

/-- C5 (claim): for a register index `r ∈ [0..=14]`, a second
`read_core_reg r` right after a successful one returns the same value and
changes nothing at all — the trace in particular, so the second call issues
no traffic to the memory interface. -/
theorem read_core_reg_twice_cached {fuel fuel' r : Nat} {s s' : Sys} {v : Nat}
    (hr : r ≤ 14) (h : read_core_reg fuel r s = (Except.ok v, s')) :
    read_core_reg fuel' r s' = (Except.ok v, s') ∧
      (read_core_reg fuel' r s').2.trace = s'.trace := by
  obtain ⟨b, hb⟩ := read_core_reg_ok_slot (by omega) h
  have h2 := @read_core_reg_cached fuel' r s' v b (by omega) hb
  exact ⟨h2, by rw [h2]⟩

/-- Witness for C5 at `r = 2` on a concrete halted session: the first read
succeeds with value 0 and the second is served from the cache. -/
theorem read_core_reg_twice_cached_witness :
    read_core_reg 3 2 ((read_core_reg 2 2 (mkSys (mkDevice true true 0x55 0x1000)
        (.halted .request) true)).2) =
      (Except.ok 0, (read_core_reg 2 2 (mkSys (mkDevice true true 0x55 0x1000)
        (.halted .request) true)).2) := by
  have h1 : read_core_reg 2 2 (mkSys (mkDevice true true 0x55 0x1000) (.halted .request) true) =
      (Except.ok 0, (read_core_reg 2 2 (mkSys (mkDevice true true 0x55 0x1000)
        (.halted .request) true)).2) := by
    rw [show (Except.ok 0 : Except DrvError Nat) =
      (read_core_reg 2 2 (mkSys (mkDevice true true 0x55 0x1000)
        (.halted .request) true)).1 from rfl]
  exact (read_core_reg_twice_cached (by omega) h1).1

/-- C7 (claim): `write_core_reg r v` for `r ∈ [0..=16]` and a 32-bit `v`
succeeds, sets slot `r` to `(v, dirty := true)`, leaves every other slot,
the device and the trace unchanged — no hardware traffic; the write is
deferred to write-back. -/
theorem write_core_reg_cache_only {r v : Nat} (s : Sys) (hr : r ≤ 16) (hv : v < 2^32) :
    (write_core_reg r v s).1 = Except.ok () ∧
      (write_core_reg r v s).2.registerCache r = some (v, true) ∧
      (∀ j, j ≠ r → (write_core_reg r v s).2.registerCache j = s.registerCache j) ∧
      (write_core_reg r v s).2.trace = s.trace ∧
      (write_core_reg r v s).2.dev = s.dev := by
  rw [write_core_reg_run s hr hv]
  refine ⟨rfl, by simp, ?_, rfl, rfl⟩
  intro j hj
  simp [hj]

/-- Witness for C7 at `r = 16`, `v = 0xCAFE`. -/
theorem write_core_reg_cache_only_witness :
    (write_core_reg 16 0xCAFE (mkSys (mkDevice true true 0 0) (.halted .request) true)).1 =
        Except.ok () ∧
      (write_core_reg 16 0xCAFE (mkSys (mkDevice true true 0 0)
          (.halted .request) true)).2.registerCache 16 = some (0xCAFE, true) :=
  ⟨(write_core_reg_cache_only _ (by omega) (by omega)).1,
   (write_core_reg_cache_only _ (by omega) (by omega)).2.1⟩

/-- C9 (claim): register index 17 (indeed any index ≥ 17) is rejected by
both `read_core_reg` and `write_core_reg` with `InvalidRegisterNumber`
carrying the index, and the whole state — cache, device, trace — is left
unchanged. -/
theorem core_reg_invalid_number {r : Nat} (s : Sys) (fuel v : Nat)
    (hr : 17 ≤ r) (hv : v < 2^32) :
    read_core_reg fuel r s = (Except.error (.invalidRegisterNumber r), s) ∧
      write_core_reg r v s = (Except.error (.invalidRegisterNumber r), s) := by
  constructor
  · have hu : read_core_reg_uncached fuel r s =
        (Except.error (.invalidRegisterNumber r), s) := by
      unfold read_core_reg_uncached
      rw [if_neg (by omega), if_neg (by omega), if_neg (by omega)]
      rfl
    unfold read_core_reg
    rw [M.run_bind, M.run_getSys]
    dsimp only
    rw [if_neg (by omega)]
    dsimp only
    rw [M.run_bind, hu]
  · unfold write_core_reg
    rw [if_neg (by omega)]
    rw [M.run_bind, M.run_getSys]
    dsimp only
    rw [if_pos (by omega)]
    rfl

/-- Witness for C9 at index 17 on a concrete session. -/
theorem core_reg_invalid_number_witness :
    read_core_reg 2 17 (mkSys (mkDevice true true 0 0) (.halted .request) true) =
        (Except.error (.invalidRegisterNumber 17),
         mkSys (mkDevice true true 0 0) (.halted .request) true) ∧
      write_core_reg 17 5 (mkSys (mkDevice true true 0 0) (.halted .request) true) =
        (Except.error (.invalidRegisterNumber 17),
         mkSys (mkDevice true true 0 0) (.halted .request) true) :=
  core_reg_invalid_number _ 2 5 (by omega) (by omega)

/-- C10 (claim): `write_core_reg r v` followed by `read_core_reg r` (no
intervening run/halt/reset) returns `v` and the read changes nothing — it
is served from the dirty cache slot without touching the memory
interface. -/
theorem write_then_read_core_reg {r v fuel : Nat} (s : Sys) (hr : r ≤ 16) (hv : v < 2^32) :
    (write_core_reg r v s).1 = Except.ok () ∧
      (write_core_reg r v s).2.trace = s.trace ∧
      read_core_reg fuel r (write_core_reg r v s).2 =
        (Except.ok v, (write_core_reg r v s).2) := by
  rw [write_core_reg_run s hr hv]
  refine ⟨rfl, rfl, ?_⟩
  exact read_core_reg_cached (b := true) (by omega) (by simp)

/-- u32 wrapping `x.wrapping_sub(8)` undoes `+ 8` below the 32-bit bound. -/
theorem wrap_sub8 {pc : Nat} (h : pc + 8 < 2^32) :
    ((pc + 8) % 2^32 + (2^32 - 8)) % 2^32 = pc := by
  have e : (2 : Nat)^32 = 4294967296 := by norm_num
  rw [e] at h ⊢
  omega

/-- C2 counterexample: on a session whose only dirty slot is 16 (CPSR),
`run` — which triggers register write-back — does not complete normally:
it aborts with the source's `panic!("Logic missing for writeback of
register 16")`, modelled as the `logicMissing 16` error. -/
theorem run_dirty_cpsr_panics :
    (run 10 dirtyCpsrSys).1 = Except.error (.logicMissing 16) ∧
      (on_session_stop 10 dirtyCpsrSys).1 = Except.error (.logicMissing 16) := by
  exact ⟨by decide, by decide⟩

/-- C2 amended: during register write-back (triggered by `run` and
`on_session_stop`), a dirty slot 16 is not ignored — after the earlier
slots are processed it aborts the program with the slot-16 panic
(`logicMissing 16`), issuing no bus traffic when every other slot is clean
or empty. -/
theorem writeback_dirty_cpsr_aborts {s : Sys} {v fuel : Nat} {hrn : HaltReason}
    (hs : s.currentState = .halted hrn)
    (hc : s.registerCache = fun i => if i = 16 then some (v, true) else none) :
    run fuel s = (Except.error (.logicMissing 16), s) ∧
      on_session_stop fuel s = (Except.error (.logicMissing 16), s) := by
  have hc16 : s.registerCache 16 = some (v, true) := by rw [hc]; simp
  have hclean : ∀ j, j ≠ 16 → ∀ p, s.registerCache j = some p → p.2 = false := by
    intro j hj p hp
    rw [hc] at hp
    simp [hj] at hp
  have hwb : writeback_registers fuel s = (Except.error (.logicMissing 16), s) := by
    unfold writeback_registers
    rw [M.run_bind, writebackLoop_panics fuel 17 0 s v hc16 hclean (by omega) (by omega)]
  constructor
  · unfold run
    rw [M.run_bind, M.run_getSys]
    dsimp only
    rw [hs, if_neg (by simp)]
    rw [M.run_bind, hwb]
  · unfold on_session_stop
    rw [M.run_bind, M.run_getSys]
    dsimp only
    rw [hs]
    dsimp only [CoreStatus.is_halted]
    rw [if_pos rfl, hwb]

/-- Witness for the amended C2 on the concrete dirty-CPSR session. -/
theorem writeback_dirty_cpsr_aborts_witness :
    run 10 dirtyCpsrSys = (Except.error (.logicMissing 16), dirtyCpsrSys) :=
  (writeback_dirty_cpsr_aborts rfl rfl).1

/-- C3 counterexample: a successful `halt` call after which not every
cache slot is empty — here the cheap already-halted path, where the cache
is not even cleared and the final PC read is served from slot 15, which
therefore stays occupied. -/
theorem halt_leaves_cache_nonempty :
    (halt 2 2 haltedCachedPcSys).1 = Except.ok 0x1000 ∧
      (halt 2 2 haltedCachedPcSys).2.registerCache 15 = some (0x1000, false) ∧
      ¬ (∀ i, (halt 2 2 haltedCachedPcSys).2.registerCache i = none) := by
  refine ⟨by decide, by decide, fun hall => ?_⟩
  have h15 := hall 15
  rw [show (halt 2 2 haltedCachedPcSys).2.registerCache 15 =
    some (0x1000, false) from by decide] at h15
  exact Option.noConfusion h15

/-! ## Device dispatch lemmas -/

theorem devRead_dscr (base : Nat) (d : Device) :
    devRead base d (Dbgdscr.get_mmio_address base) = (dscrValue d, d) := by
  unfold devRead
  rw [if_pos rfl]

theorem devWrite_drcr (base : Nat) (d : Device) (val : Nat) :
    devWrite base d (Dbgdrcr.get_mmio_address base) val = drcrEffect d val := by
  unfold devWrite Dbgdscr.get_mmio_address Dbgitr.get_mmio_address
    Dbgdtrrx.get_mmio_address Dbgdrcr.get_mmio_address
  rw [if_neg (by omega), if_neg (by omega), if_neg (by omega), if_pos rfl]

theorem devWrite_bvr (base : Nat) (d : Device) (i v : Nat) (hi : i < 16) :
    devWrite base d (Dbgbvr.get_mmio_address base + i * 4) v =
      { d with bvr := updFn d.bvr i v } := by
  unfold devWrite Dbgdscr.get_mmio_address Dbgitr.get_mmio_address
    Dbgdtrrx.get_mmio_address Dbgdrcr.get_mmio_address Dbgbvr.get_mmio_address
  rw [if_neg (by omega), if_neg (by omega), if_neg (by omega), if_neg (by omega),
    if_pos (by omega)]
  have hidx : (base + 0x100 + i * 4 - (base + 0x100)) / 4 = i := by omega
  rw [hidx]

theorem devWrite_bcr (base : Nat) (d : Device) (i v : Nat) (hi : i < 16) :
    devWrite base d (Dbgbcr.get_mmio_address base + i * 4) v =
      { d with bcr := updFn d.bcr i v } := by
  unfold devWrite Dbgdscr.get_mmio_address Dbgitr.get_mmio_address
    Dbgdtrrx.get_mmio_address Dbgdrcr.get_mmio_address Dbgbvr.get_mmio_address
    Dbgbcr.get_mmio_address
  rw [if_neg (by omega), if_neg (by omega), if_neg (by omega), if_neg (by omega),
    if_neg (by omega), if_pos (by omega)]
  have hidx : (base + 0x140 + i * 4 - (base + 0x140)) / 4 = i := by omega
  rw [hidx]

theorem devRead_bvr (base : Nat) (d : Device) (i : Nat) (hi : i < 16) :
    devRead base d (Dbgbvr.get_mmio_address base + i * 4) = (d.bvr i, d) := by
  unfold devRead Dbgdscr.get_mmio_address Dbgdtrtx.get_mmio_address
    Dbgdidr.get_mmio_address Dbgbvr.get_mmio_address
  rw [if_neg (by omega), if_neg (by omega), if_neg (by omega), if_pos (by omega)]
  have hidx : (base + 0x100 + i * 4 - (base + 0x100)) / 4 = i := by omega
  rw [hidx]

theorem devRead_bcr (base : Nat) (d : Device) (i : Nat) (hi : i < 16) :
    devRead base d (Dbgbcr.get_mmio_address base + i * 4) = (d.bcr i, d) := by
  unfold devRead Dbgdscr.get_mmio_address Dbgdtrtx.get_mmio_address
    Dbgdidr.get_mmio_address Dbgbvr.get_mmio_address Dbgbcr.get_mmio_address
  rw [if_neg (by omega), if_neg (by omega), if_neg (by omega), if_neg (by omega),
    if_pos (by omega)]
  have hidx : (base + 0x140 + i * 4 - (base + 0x140)) / 4 = i := by omega
  rw [hidx]

/-- A DBGDRCR write never touches the core's general-purpose registers. -/
theorem drcrEffect_regs (d : Device) (val : Nat) : (drcrEffect d val).regs = d.regs := by
  unfold drcrEffect
  by_cases h2 : val.testBit 2 <;> by_cases h0 : val.testBit 0 <;>
    by_cases h1 : val.testBit 1 <;> simp [h2, h0, h1]

/-- Polling DBGDSCR leaves the device state untouched. -/
theorem pollDscr_dev (fuel : Nat) (p : Nat → Bool) :
    ∀ s, ((pollDscr fuel p) s).2.dev = s.dev := by
  induction fuel with
  | zero => intro s; rfl
  | succ n ih =>
    intro s
    show ((getSys >>= fun s0 => busRead (Dbgdscr.get_mmio_address s0.baseAddress) >>=
      fun w => if p w then pure w else pollDscr n p) s).2.dev = s.dev
    rw [M.run_bind, M.run_getSys]
    dsimp only
    rw [M.run_bind, M.run_busRead, devRead_dscr]
    dsimp only
    by_cases hp : p (dscrValue s.dev)
    · rw [if_pos hp]; rfl
    · rw [if_neg hp]
      exact ih _

/-- `status` leaves the device state untouched. -/
theorem status_dev : ∀ s, ((status) s).2.dev = s.dev := by
  intro s
  show ((getSys >>= fun s0 => busRead (Dbgdscr.get_mmio_address s0.baseAddress) >>=
    fun w => if w.testBit 0 then
      modifySys (fun s => { s with currentState := .halted (haltReasonOfMoe ((w / 4) % 16)) })
        >>= fun _ => pure (CoreStatus.halted (haltReasonOfMoe ((w / 4) % 16)))
    else modifySys (fun s => { s with currentState := .running }) >>= fun _ =>
      pure CoreStatus.running) s).2.dev = s.dev
  rw [M.run_bind, M.run_getSys]
  dsimp only
  rw [M.run_bind, M.run_busRead, devRead_dscr]
  dsimp only
  by_cases hb : (dscrValue s.dev).testBit 0
  · rw [if_pos hb]; rfl
  · rw [if_neg hb]; rfl

/-- The write-back loop over clean-or-empty slots changes nothing. -/
theorem writebackLoop_skip (fuel count i : Nat) (s : Sys)
    (hclean : ∀ j p, s.registerCache j = some p → p.2 = false) :
    writebackLoop fuel count i s = (Except.ok (), s) := by
  induction count generalizing i with
  | zero => rfl
  | succ n ih =>
    show (writebackSlot fuel i >>= fun _ => writebackLoop fuel n (i + 1)) s = _
    rw [M.run_bind, writebackSlot_skip fuel i s (fun p hp => hclean i p hp)]
    exact ih (i + 1)

/-- A `run` on a session with no dirty cache slots does not touch the
core's general-purpose registers: write-back flushes nothing, and the
restart handshake only exercises DBGDRCR and DBGDSCR. -/
theorem run_clean_regs (fuel : Nat) (s : Sys)
    (hclean : ∀ j p, s.registerCache j = some p → p.2 = false) :
    ((run fuel s).2).dev.regs 0 = s.dev.regs 0 := by
  unfold run
  rw [M.run_bind, M.run_getSys]
  dsimp only
  by_cases hr : s.currentState = CoreStatus.running
  · rw [if_pos hr]; rfl
  · rw [if_neg hr]
    rw [M.run_bind]
    have hwb : writeback_registers fuel s =
        (Except.ok (), { s with registerCache := fun _ => none }) := by
      unfold writeback_registers
      rw [M.run_bind, writebackLoop_skip fuel 17 0 s hclean]
      rfl
    rw [hwb]
    dsimp only
    rw [M.run_bind, M.run_busWrite, devWrite_drcr]
    dsimp only
    rw [M.run_bind]
    rcases hp : pollDscr fuel (fun w => w.testBit 1)
        { s with dev := drcrEffect s.dev 2,
                 registerCache := fun _ => none,
                 trace := BusOp.writeW (Dbgdrcr.get_mmio_address s.baseAddress) 2 :: s.trace }
      with ⟨resP, sPoll⟩
    have hdev : sPoll.dev = drcrEffect s.dev 2 := by
      have := pollDscr_dev fuel (fun w => w.testBit 1)
        { s with dev := drcrEffect s.dev 2,
                 registerCache := fun _ => none,
                 trace := BusOp.writeW (Dbgdrcr.get_mmio_address s.baseAddress) 2 :: s.trace }
      rw [hp] at this
      exact this
    cases resP with
    | error e =>
      dsimp only
      rw [hdev, drcrEffect_regs]
    | ok w =>
      dsimp only
      rw [M.run_bind, M.run_modifySys]
      dsimp only
      rw [M.run_bind]
      rcases hst : status { sPoll with currentState := CoreStatus.running }
        with ⟨resS, sStat⟩
      have hdev2 : sStat.dev = sPoll.dev := by
        have := status_dev { sPoll with currentState := CoreStatus.running }
        rw [hst] at this
        exact this
      cases resS with
      | error e =>
        dsimp only
        rw [hdev2, hdev, drcrEffect_regs]
      | ok st =>
        dsimp only
        rw [M.run_pure]
        dsimp only
        rw [hdev2, hdev, drcrEffect_regs]

/-- C3 amended: after `reset` every cache slot is empty; after a
successful `halt` that had to request the halt, and after a successful
`reset_and_halt`, the cache is cleared and then repopulated only by the
final PC read — slot 15 holds the returned PC (clean), slot 0 the saved
pre-clobber R0 (dirty), and every other slot is empty. -/
theorem cache_after_halt_reset :
    (∀ (rs : Device → Device) (s : Sys),
      (reset rs s).1 = Except.ok () ∧ ∀ i, (reset rs s).2.registerCache i = none) ∧
    (∀ (fuel timeout : Nat) (s s' : Sys) (v : Nat),
      s.currentState.is_halted = false → halt fuel timeout s = (Except.ok v, s') →
      s'.registerCache 15 = some (v, false) ∧
        (∃ w, s'.registerCache 0 = some (w, true)) ∧
        ∀ i, i ≠ 0 → i ≠ 15 → s'.registerCache i = none) ∧
    (∀ (fuel timeout : Nat) (h1 h2 h3 : Device → Device) (s s' : Sys) (v : Nat),
      reset_and_halt fuel timeout h1 h2 h3 s = (Except.ok v, s') →
      s'.registerCache 15 = some (v, false) ∧
        (∃ w, s'.registerCache 0 = some (w, true)) ∧
        ∀ i, i ≠ 0 → i ≠ 15 → s'.registerCache i = none) :=
  ⟨fun _ _ => ⟨rfl, fun _ => rfl⟩,
   fun _ _ _ _ _ hs h => halt_cache_spec hs h,
   fun _ _ _ _ _ _ _ _ h => reset_and_halt_cache_spec h⟩

set_option maxHeartbeats 4000000 in
/-- Witness for the amended C3: a concrete halt from the running state at
`r0 = 0x55`, `pc = 0x1000`. -/
theorem cache_after_halt_reset_witness :
    (halt 2 2 (runningSys 0x55 0x1000)).2.registerCache 15 = some (0x1000, false) ∧
      (∃ w, (halt 2 2 (runningSys 0x55 0x1000)).2.registerCache 0 = some (w, true)) ∧
      ∀ i, i ≠ 0 → i ≠ 15 →
        (halt 2 2 (runningSys 0x55 0x1000)).2.registerCache i = none := by
  have h1 : (halt 2 2 (runningSys 0x55 0x1000)).1 = Except.ok 0x1000 := by
    simp [halt, halt_finish, runningSys, mkSys, mkDevice, wait_for_core_halted, status,
      read_core_reg, read_core_reg_uncached, prepare_r0_for_clobber, read_core_reg_r0,
      execute_instruction, execute_instruction_with_result, enable_itr_if_needed,
      pollDscr, pollDscrFrom, M.run_bind, M.run_getSys, M.run_pure, M.run_modifySys,
      M.run_setCache, M.run_busRead, M.run_busWrite, M.run_throwE, devRead, devWrite,
      drcrEffect, execInstr, dscrValue, didrValue, bitOf, updFn, reset_register_cache,
      setCache, Dbgdscr.get_mmio_address, Dbgitr.get_mmio_address,
      Dbgdtrtx.get_mmio_address, Dbgdrcr.get_mmio_address, Dbgdidr.get_mmio_address,
      Dbgdtrrx.get_mmio_address, Dbgbvr.get_mmio_address, Dbgbcr.get_mmio_address,
      build_mcr, build_mov, build_mrs, build_bx, build_ldc, build_stc, mcrRt,
      Nat.testBit_to_div_mod, CoreStatus.is_halted, haltReasonOfMoe]
  have h : halt 2 2 (runningSys 0x55 0x1000) =
      (Except.ok 0x1000, (halt 2 2 (runningSys 0x55 0x1000)).2) := by rw [← h1]
  exact cache_after_halt_reset.2.1 2 2 (runningSys 0x55 0x1000)
    (halt 2 2 (runningSys 0x55 0x1000)).2 0x1000 rfl h

/-- C1: evaluation at the failing input.  `cleanR0Sys` holds the claim's
precondition — slot 0 caches the architectural R0 = 0x55 clean, from an
earlier `read_core_reg(0)`.  Reading the PC (a routine that clobbers R0)
does NOT re-mark slot 0 dirty (`prepare_r0_for_clobber` only acts on an
empty slot), the `MOV r0, PC` leaves the core's R0 = PC + 8 = 0x1008, and
the following `run` writes nothing back: R0 stays 0x1008 ≠ 0x55 after the
halt→run cycle, so the claimed invariant and R0 preservation fail. -/
theorem r0_not_preserved_with_clean_slot0 :
    cleanR0Sys.dev.regs 0 = 0x55 ∧
      cleanR0Sys.registerCache 0 = some (0x55, false) ∧
      (read_core_reg 2 15 cleanR0Sys).1 = Except.ok 0x1000 ∧
      (read_core_reg 2 15 cleanR0Sys).2.registerCache 0 = some (0x55, false) ∧
      (read_core_reg 2 15 cleanR0Sys).2.dev.regs 0 = 0x1008 ∧
      (run 2 (read_core_reg 2 15 cleanR0Sys).2).2.dev.regs 0 = 0x1008 ∧
      (0x1008 : Nat) ≠ 0x55 := by
  have h1 : (read_core_reg 2 15 cleanR0Sys).1 = Except.ok 0x1000 := by decide
  have h : read_core_reg 2 15 cleanR0Sys =
      (Except.ok 0x1000, (read_core_reg 2 15 cleanR0Sys).2) := by rw [← h1]
  obtain ⟨-, h15, -, hframe, hsome⟩ :=
    read15_spec (show cleanR0Sys.registerCache 15 = none from by decide) h
  have hclean : ∀ j p,
      (read_core_reg 2 15 cleanR0Sys).2.registerCache j = some p → p.2 = false := by
    intro j p hp
    by_cases hj15 : j = 15
    · subst hj15
      rw [h15] at hp
      cases hp
      rfl
    · by_cases hj0 : j = 0
      · subst hj0
        rw [hsome (0x55, false) (by decide)] at hp
        cases hp
        rfl
      · rw [hframe j hj0 hj15] at hp
        have : cleanR0Sys.registerCache j = none := by
          show (if j = 0 then some (0x55, false) else none) = none
          rw [if_neg hj0]
        rw [this] at hp
        exact Option.noConfusion hp
  refine ⟨rfl, by decide, h1, ?_, by decide, ?_, by decide⟩
  · exact hsome (0x55, false) (by decide)
  · exact (run_clean_regs 2 _ hclean).trans (by decide)

/-- C4 (claim): a successful `read_core_reg 15` on an uncached PC slot
executed `MOV r0, PC` and `MCR p14,0,r0,c0,c5,0` through DBGITR, read the
observed R0 value out of DBGDTRTX, and returned exactly that observation
minus 8 (u32 wrap) — the A32 pipeline offset. -/
theorem read_pc_pipeline_offset {fuel : Nat} {s s' : Sys} {v : Nat}
    (hc15 : s.registerCache 15 = none)
    (h : read_core_reg fuel 15 s = (Except.ok v, s')) :
    ∃ pra, v = (pra + (2^32 - 8)) % 2^32 ∧
      BusOp.writeW (Dbgitr.get_mmio_address s.baseAddress) (build_mov 0 15) ∈ s'.trace ∧
      BusOp.writeW (Dbgitr.get_mmio_address s.baseAddress) (build_mcr 14 0 0 0 5 0) ∈ s'.trace ∧
      BusOp.readW (Dbgdtrtx.get_mmio_address s.baseAddress) pra ∈ s'.trace :=
  (read15_spec hc15 h).1

/-- Witness for C4, the spec's scenario 3: PC = 0xABCD, observed R0 value
0xABCD + 8 on the transfer register, returned PC 0xABCD. -/
theorem read_pc_pipeline_offset_witness :
    (read_core_reg 2 15 pcReadSys).1 = Except.ok 0xABCD ∧
      BusOp.readW (Dbgdtrtx.get_mmio_address pcReadSys.baseAddress) (0xABCD + 8) ∈
        (read_core_reg 2 15 pcReadSys).2.trace ∧
      (∃ pra, 0xABCD = (pra + (2^32 - 8)) % 2^32 ∧
        BusOp.writeW (Dbgitr.get_mmio_address pcReadSys.baseAddress) (build_mov 0 15) ∈
          (read_core_reg 2 15 pcReadSys).2.trace ∧
        BusOp.writeW (Dbgitr.get_mmio_address pcReadSys.baseAddress)
          (build_mcr 14 0 0 0 5 0) ∈ (read_core_reg 2 15 pcReadSys).2.trace ∧
        BusOp.readW (Dbgdtrtx.get_mmio_address pcReadSys.baseAddress) pra ∈
          (read_core_reg 2 15 pcReadSys).2.trace) := by
  have h1 : (read_core_reg 2 15 pcReadSys).1 = Except.ok 0xABCD := by decide
  have h : read_core_reg 2 15 pcReadSys =
      (Except.ok 0xABCD, (read_core_reg 2 15 pcReadSys).2) := by rw [← h1]
  exact ⟨h1, by decide, read_pc_pipeline_offset rfl h⟩

/-- The `hw_breakpoints` unit loop reports, for each of `count` units from
`i`, `some DBGBVR[j]` exactly when `DBGBCR[j].E` is set; it only reads, so
the device survives and the trace only grows. -/
theorem hwBpLoop_spec (count : Nat) : ∀ (i : Nat) (s : Sys), i + count ≤ 16 →
    ∃ t, hwBreakpointsLoop count i s =
      (Except.ok ((List.range' i count).map fun j =>
        if (s.dev.bcr j).testBit 0 then some (s.dev.bvr j) else none),
       { s with trace := t }) := by
  induction count with
  | zero =>
    intro i s _
    exact ⟨s.trace, rfl⟩
  | succ n ih =>
    intro i s hfit
    show ∃ t, (getSys >>= fun s0 =>
      busRead (Dbgbvr.get_mmio_address s0.baseAddress + i * 4) >>= fun v =>
      busRead (Dbgbcr.get_mmio_address s0.baseAddress + i * 4) >>= fun c =>
      hwBreakpointsLoop n (i + 1) >>= fun rest =>
      pure ((if c.testBit 0 then some v else none) :: rest)) s = _
    rw [M.run_bind, M.run_getSys]
    dsimp only
    rw [M.run_bind, M.run_busRead, devRead_bvr _ _ _ (by omega)]
    dsimp only
    rw [M.run_bind, M.run_busRead, devRead_bcr _ _ _ (by omega)]
    dsimp only
    rw [M.run_bind]
    obtain ⟨t, ht⟩ := ih (i + 1)
      { s with trace := BusOp.readW (Dbgbcr.get_mmio_address s.baseAddress + i * 4)
                  (s.dev.bcr i) ::
                BusOp.readW (Dbgbvr.get_mmio_address s.baseAddress + i * 4)
                  (s.dev.bvr i) :: s.trace }
      (by omega)
    rw [ht]
    dsimp only
    refine ⟨t, ?_⟩
    rw [M.run_pure, List.range'_succ, List.map_cons]

/-- C8 (claim): for a unit `u` below the (cached) breakpoint-unit count
and a 32-bit address `a`, `set_hw_breakpoint u a` succeeds — writing `a`
to DBGBVR[u] and an enabled control word to DBGBCR[u] — and a following
`hw_breakpoints` returns `some a` at position `u`. -/
theorem set_then_hw_breakpoints {u a n : Nat} (s : Sys)
    (hn : s.numBreakpoints = some n) (hn16 : n ≤ 16) (hu : u < n) (ha : a < 2^32) :
    (set_hw_breakpoint u a s).1 = Except.ok () ∧
      ∃ l s2, hw_breakpoints (set_hw_breakpoint u a s).2 = (Except.ok l, s2) ∧
        l.getD u none = some a := by
  have hset : set_hw_breakpoint u a s =
      (Except.ok (),
       { s with dev := { s.dev with bvr := updFn s.dev.bvr u a,
                                    bcr := updFn s.dev.bcr u bcrMatchWord },
                trace := BusOp.writeW (Dbgbcr.get_mmio_address s.baseAddress + u * 4)
                    bcrMatchWord ::
                  BusOp.writeW (Dbgbvr.get_mmio_address s.baseAddress + u * 4) a ::
                  s.trace }) := by
    unfold set_hw_breakpoint valid_32_address
    rw [if_pos ha]
    rw [M.run_bind, M.run_pure]
    dsimp only
    rw [M.run_bind, M.run_getSys]
    dsimp only
    rw [M.run_bind, M.run_busWrite, devWrite_bvr _ _ _ _ (by omega)]
    dsimp only
    rw [M.run_busWrite, devWrite_bcr _ _ _ _ (by omega)]
  refine ⟨by rw [hset], ?_⟩
  rw [hset]
  dsimp only
  unfold hw_breakpoints
  rw [M.run_bind]
  unfold available_breakpoint_units
  rw [M.run_bind, M.run_getSys]
  dsimp only
  rw [hn]
  dsimp only
  obtain ⟨t, ht⟩ := hwBpLoop_spec n 0 _ (by omega)
  rw [ht]
  refine ⟨_, _, rfl, ?_⟩
  rw [List.getD_eq_getElem?_getD, List.getElem?_map,
    List.getElem?_range' 0 1 (show u < n from hu)]
  have hu' : 0 + 1 * u = u := by omega
  rw [hu']
  show (Option.map (fun j => if (updFn s.dev.bcr u bcrMatchWord j).testBit 0
    then some (updFn s.dev.bvr u a j) else none) (some u)).getD none = some a
  rw [show Option.map (fun j => if (updFn s.dev.bcr u bcrMatchWord j).testBit 0
      then some (updFn s.dev.bvr u a j) else none) (some u) =
    some (if (updFn s.dev.bcr u bcrMatchWord u).testBit 0
      then some (updFn s.dev.bvr u a u) else none) from rfl]
  rw [show updFn s.dev.bcr u bcrMatchWord u = bcrMatchWord from by
    unfold updFn; rw [if_pos rfl]]
  rw [show updFn s.dev.bvr u a u = a from by unfold updFn; rw [if_pos rfl]]
  rw [if_pos (by decide)]
  rfl

set_option maxHeartbeats 4000000 in
/-- C6: evaluation at the failing input.  `write_8(0x1000, [0x11, 0x22])`
succeeds but stores `data[1]` at byte address 0x1004 — the source strides
the destination by 4 bytes per element — leaving the byte at 0x1001 equal
to 0, whereas writing byte-by-byte at consecutive addresses (the spec's
bulk write, `write_8_spec`) makes the word at 0x1000 equal 0x2211, i.e.
byte 0x22 at address 0x1001.  So `write_8` is not equivalent to
`write_word_8(addr + i, data[i])` in increasing order. -/
theorem write_8_strides_by_4 :
    (write_8 2 0x1000 [0x11, 0x22] memWriteSys).1 = Except.ok () ∧
      (write_8 2 0x1000 [0x11, 0x22] memWriteSys).2.dev.mem 0x1000 = 0x11 ∧
      (write_8 2 0x1000 [0x11, 0x22] memWriteSys).2.dev.mem 0x1004 = 0x22 ∧
      (write_8_spec 2 0x1000 [0x11, 0x22] memWriteSys).2.dev.mem 0x1000 = 0x2211 ∧
      leByte 0x11 1 = 0 ∧ leByte 0x2211 1 = 0x22 ∧ (0 : Nat) ≠ 0x22 := by
  refine ⟨?_, ?_, ?_, ?_, by decide, by decide, by decide⟩ <;>
    simp [write_8, write_8_spec, write_8_loop, write_8_spec_loop, write_word_8,
      write_word_32, read_word_32, set_r0, valid_32_address, setLeByte, leByte,
      prepare_r0_for_clobber, read_core_reg_r0, memWriteSys, mkSys, mkDevice,
      execute_instruction, execute_instruction_with_result,
      execute_instruction_with_input, enable_itr_if_needed, pollDscr, pollDscrFrom,
      M.run_bind, M.run_getSys, M.run_pure, M.run_modifySys, M.run_setCache,
      M.run_busRead, M.run_busWrite, M.run_throwE, devRead, devWrite, drcrEffect,
      execInstr, dscrValue, didrValue, bitOf, updFn, setCache,
      Dbgdscr.get_mmio_address, Dbgitr.get_mmio_address, Dbgdtrtx.get_mmio_address,
      Dbgdrcr.get_mmio_address, Dbgdidr.get_mmio_address, Dbgdtrrx.get_mmio_address,
      Dbgbvr.get_mmio_address, Dbgbcr.get_mmio_address, build_mcr, build_mrc,
      build_mov, build_mrs, build_bx, build_ldc, build_stc, mcrRt,
      Nat.testBit_to_div_mod, CoreStatus.is_halted, haltReasonOfMoe]

/-- Witness for C8: unit 1, address 0x2345, on a session with 4 cached
breakpoint units. -/
theorem set_then_hw_breakpoints_witness :
    (set_hw_breakpoint 1 0x2345 bpSys).1 = Except.ok () ∧
      ∃ l s2, hw_breakpoints (set_hw_breakpoint 1 0x2345 bpSys).2 = (Except.ok l, s2) ∧
        l.getD 1 none = some 0x2345 :=
  set_then_hw_breakpoints bpSys rfl (by omega) (by omega) (by omega)

/-- Witness for C10 at `r = 15`, `v = 0x2000`. -/
theorem write_then_read_core_reg_witness :
    read_core_reg 2 15
        (write_core_reg 15 0x2000 (mkSys (mkDevice true true 0 0) (.halted .request) true)).2 =
      (Except.ok 0x2000,
       (write_core_reg 15 0x2000 (mkSys (mkDevice true true 0 0) (.halted .request) true)).2) :=
  (write_then_read_core_reg _ (by omega) (by omega)).2.2

end Armv7a
